import Mathlib

/-!
# XAI-LLM-Integration: the metrics and report generator of `script.js`

A shallow embedding of `simulateLLMAnalysis` and `getAlternativeTechniques`
(`src/script.js`, lines 205-301) together with the part of the ECMAScript
language they rely on: Number values (IEEE-754 binary64, round to nearest,
ties to even), `Math.abs`, `Math.sqrt`, `Math.pow(_, 2)`,
`Number.prototype.toFixed`, `Number::toString`, property lookup on an object
literal and template-literal interpolation; and of the handlers around them,
`validateInputs`, `prepareAnalysisData`, `handleSubmit` (lines 128-203) and
`validateAndDisplayImage` (lines 464-488), with `parseFloat`,
`String.prototype.trim` and `String.prototype.startsWith`.
-/

/-! ## ECMAScript Number values -/

/-- An ECMAScript Number value. `fin neg m e` denotes `(-1)^neg * m * 2^e`;
the values a program can hold are the canonical ones (`JSNumber.Canonical`). -/
inductive JSNumber where
  | nan : JSNumber
  | inf (neg : Bool) : JSNumber
  | fin (neg : Bool) (m : Nat) (e : Int) : JSNumber
  deriving DecidableEq, Repr

namespace JSNumber

/-- Number of binary digits of `m`, counted by halving at most `fuel` times. -/
def bitLengthAux : Nat → Nat → Nat
  | 0, _ => 0
  | fuel + 1, m => if m = 0 then 0 else bitLengthAux fuel (m / 2) + 1

/-- Number of binary digits of `m` (0 for 0). -/
def bitLength (m : Nat) : Nat := bitLengthAux m m

/-- The canonical binary64 encodings: 53-bit significand, exponent of the unit
in the last place between -1074 and 971, subnormals and zeros at -1074. -/
def Canonical : JSNumber → Prop
  | nan => True
  | inf _ => True
  | fin _ m e => m < 2 ^ 53 ∧ -1074 ≤ e ∧ e ≤ 971 ∧ (m < 2 ^ 52 → e = -1074)

instance : DecidablePred Canonical := fun x => by
  cases x <;> unfold Canonical <;> infer_instance

/-- Round the exact magnitude `(m + s) * 2^e`, where `0 < s < 1` when `sticky`
and `s = 0` otherwise, to the nearest binary64 value, ties to even, and attach
the sign. Magnitudes from `2^1024 - 2^970` on round to infinity. -/
def roundNearestEven (neg : Bool) (m : Nat) (e : Int) (sticky : Bool) : JSNumber :=
  if m = 0 then fin neg 0 (-1074)
  else
    let e1 : Int := max (e + (bitLength m : Int) - 53) (-1074)
    if e1 ≤ e then
      if 971 < e1 then inf neg else fin neg (m * 2 ^ (e - e1).toNat) e1
    else
      let sh : Nat := (e1 - e).toNat
      let q : Nat := m / 2 ^ sh
      let r : Nat := m % 2 ^ sh
      let half : Nat := 2 ^ (sh - 1)
      let up : Bool := decide (half < r) || (decide (r = half) && (sticky || decide (q % 2 = 1)))
      let q1 : Nat := if up then q + 1 else q
      let q2 : Nat := if q1 = 2 ^ 53 then 2 ^ 52 else q1
      let e2 : Int := if q1 = 2 ^ 53 then e1 + 1 else e1
      if 971 < e2 then inf neg else fin neg q2 e2

/-- The Number value of a natural-number literal. -/
def ofNat (n : Nat) : JSNumber := roundNearestEven false n 0 false

/-- Unary minus. -/
def neg : JSNumber → JSNumber
  | nan => nan
  | inf s => inf (!s)
  | fin s m e => fin (!s) m e

/-- The integer `(-1)^s * m`. -/
def signed (s : Bool) (m : Nat) : Int := if s then -(m : Int) else (m : Int)

/-- The exact sum of `(-1)^s * m * 2^e` and `(-1)^t * n * 2^f`, in units of
`2^(min e f)`. -/
def alignedSum (s : Bool) (m : Nat) (e : Int) (t : Bool) (n : Nat) (f : Int) : Int :=
  signed s (m * 2 ^ (e - min e f).toNat) + signed t (n * 2 ^ (f - min e f).toNat)

/-- Number::add. An exact zero sum is +0 unless both operands are negative. -/
def add : JSNumber → JSNumber → JSNumber
  | nan, _ => nan
  | _, nan => nan
  | inf s, inf t => if s = t then inf s else nan
  | inf s, fin _ _ _ => inf s
  | fin _ _ _, inf t => inf t
  | fin s m e, fin t n f =>
    let c : Int := alignedSum s m e t n f
    if c = 0 then fin (s && t) 0 (-1074)
    else roundNearestEven (decide (c < 0)) c.natAbs (min e f) false

/-- Number::subtract. -/
def sub (x y : JSNumber) : JSNumber := add x (neg y)

/-- Number::multiply. -/
def mul : JSNumber → JSNumber → JSNumber
  | nan, _ => nan
  | _, nan => nan
  | inf s, inf t => inf (xor s t)
  | inf s, fin t n _ => if n = 0 then nan else inf (xor s t)
  | fin s m _, inf t => if m = 0 then nan else inf (xor s t)
  | fin s m e, fin t n f => roundNearestEven (xor s t) (m * n) (e + f) false

/-- Number::divide. -/
def div : JSNumber → JSNumber → JSNumber
  | nan, _ => nan
  | _, nan => nan
  | inf _, inf _ => nan
  | inf s, fin t _ _ => inf (xor s t)
  | fin s _ _, inf t => fin (xor s t) 0 (-1074)
  | fin s m e, fin t n f =>
    if n = 0 then (if m = 0 then nan else inf (xor s t))
    else if m = 0 then fin (xor s t) 0 (-1074)
    else
      let k : Nat := bitLength n + 64
      let num : Nat := m * 2 ^ k
      roundNearestEven (xor s t) (num / n) (e - f - (k : Int)) (decide (num % n ≠ 0))

instance : Add JSNumber := ⟨add⟩
instance : Sub JSNumber := ⟨sub⟩
instance : Mul JSNumber := ⟨mul⟩
instance : Div JSNumber := ⟨div⟩
instance (n : Nat) : OfNat JSNumber n := ⟨ofNat n⟩

/-- The mathematical value of a finite Number (0 for NaN and the infinities). -/
def toRat : JSNumber → ℚ
  | nan => 0
  | inf _ => 0
  | fin s m e => (if s then -1 else 1) * (m : ℚ) * (2 : ℚ) ^ e

/-- A Number that is NaN, +Infinity, or finite with a positive sign bit. -/
def IsNonNeg : JSNumber → Prop
  | nan => True
  | inf s => s = false
  | fin s _ _ => s = false

/-- A finite Number (neither NaN nor an infinity). -/
def isFinite : JSNumber → Bool
  | fin _ _ _ => true
  | _ => false

/-- The Number `x` is a finite binary64 value whose mathematical value is `v`. -/
def Represents (x : JSNumber) (v : ℚ) : Prop :=
  x.Canonical ∧ x.isFinite = true ∧ x.toRat = v

end JSNumber

/-! ## The `Math` functions used by the source -/

namespace Math

open JSNumber

/-- Floor of the square root, by binary search over `k` bits below `r`. -/
def isqrtAux (n : Nat) : Nat → Nat → Nat
  | 0, r => r
  | k + 1, r => if (r + 2 ^ k) * (r + 2 ^ k) ≤ n then isqrtAux n k (r + 2 ^ k) else isqrtAux n k r

/-- Floor of the square root of `n`. -/
def isqrt (n : Nat) : Nat := isqrtAux n (bitLength n / 2 + 1) 0

/-- The function `Math.abs`. -/
def abs : JSNumber → JSNumber
  | nan => nan
  | inf _ => inf false
  | fin _ m e => fin false m e

/-- The function `Math.sqrt`, correctly rounded, as every engine computes it. -/
def sqrt : JSNumber → JSNumber
  | nan => nan
  | inf s => if s then nan else inf false
  | fin s m e =>
    if m = 0 then fin s 0 (-1074)
    else if s then nan
    else
      let k : Nat := 128 + (e % 2).toNat
      let n : Nat := m * 2 ^ k
      let r : Nat := isqrt n
      roundNearestEven false r ((e - (k : Int)) / 2) (decide (r * r ≠ n))

/-- The call `Math.pow(x, 2)`: the correctly rounded square. ECMAScript fixes
the results for NaN (NaN), the infinities (+Infinity) and the zeros (+0), and
leaves the accuracy of the others to the engine; engines return `x * x`. -/
def pow2 (x : JSNumber) : JSNumber := x * x

end Math


/-! ## Number to String conversions -/

namespace JSNumber

/-- The decimal digits of a natural number. -/
def digits (n : Nat) : List Char := Nat.toDigits 10 n

/-- A run of `n` zero digits. -/
def zeros (n : Nat) : List Char := List.replicate n '0'

/-- Whether `10^n ≤ m * 2^e`, for an integer `n`. -/
def pow10Le (n : Int) (m : Nat) (e : Int) : Bool :=
  decide (10 ^ n.toNat * 2 ^ (-e).toNat ≤ m * 2 ^ e.toNat * 10 ^ (-n).toNat)

/-- The decimal exponent of `m * 2^e` (with `0 < m`): the `n` with
`10^(n-1) ≤ m * 2^e < 10^n`, searched upwards from `start`. -/
def decimalExponent (m : Nat) (e : Int) : Nat → Int → Int
  | 0, n => n
  | fuel + 1, n => if pow10Le n m e then decimalExponent m e fuel (n + 1) else n

/-- Whether the exact decimal `s * 10^p` converts to the binary64 value
`m * 2^e` (a canonical positive one) under round to nearest, ties to even. -/
def roundsTo (s : Nat) (p : Int) (m : Nat) (e : Int) : Bool :=
  -- all quantities in units of 2^(e-2)
  let a : Nat := s * 10 ^ p.toNat * 2 ^ (2 - e).toNat
  let b : Nat := 10 ^ (-p).toNat * 2 ^ (e - 2).toNat
  let lo : Nat := if m = 2 ^ 52 ∧ -1074 < e then 4 * m - 1 else 4 * m - 2
  let hi : Nat := 4 * m + 2
  if m % 2 = 0 then decide (lo * b ≤ a ∧ a ≤ hi * b) else decide (lo * b < a ∧ a < hi * b)

/-- The shortest decimal significand: the least `k` (from `k` on, at most `fuel`
more tries) with a `k`-digit `s` such that `s * 10^(n-k)` converts back to
`m * 2^e`; of two such `s` the closer one, the even one on a tie. Returns
`(s, k, n)`. -/
def shortest (m : Nat) (e : Int) (n0 : Int) : Nat → Nat → Nat × Nat × Int
  | 0, k => (0, k, n0)
  | fuel + 1, k =>
    let p : Int := n0 - k
    let num : Nat := m * 2 ^ e.toNat * 10 ^ (-p).toNat
    let den : Nat := 2 ^ (-e).toNat * 10 ^ p.toNat
    let lo : Nat := num / den
    let hi : Nat := lo + 1
    let okLo : Bool := roundsTo lo p m e
    let okHi : Bool := roundsTo hi p m e
    let useHi : Bool := okHi && (!okLo || decide (hi * den - num < num - lo * den)
      || (decide (hi * den - num = num - lo * den) && decide (hi % 2 = 0)))
    if okLo || okHi then
      (if useHi then (if hi = 10 ^ k then (10 ^ (k - 1), k, n0 + 1) else (hi, k, n0))
       else (lo, k, n0))
    else shortest m e n0 fuel (k + 1)

/-- Number::toString of the positive finite value `m * 2^e`. -/
def positiveToString (m : Nat) (e : Int) : List Char :=
  let n0 : Int := decimalExponent m e 640 (-324)
  let skn := shortest m e n0 17 1
  let s : Nat := skn.1
  let k : Nat := skn.2.1
  let n : Int := skn.2.2
  let ds : List Char := digits s
  if (k : Int) ≤ n ∧ n ≤ 21 then ds ++ zeros (n - k).toNat
  else if 0 < n ∧ n ≤ 21 then ds.take n.toNat ++ '.' :: ds.drop n.toNat
  else if -6 < n ∧ n ≤ 0 then '0' :: '.' :: (zeros (-n).toNat ++ ds)
  else
    let ex : List Char := (if 0 ≤ n - 1 then '+' else '-') :: digits (n - 1).natAbs
    if k = 1 then ds ++ 'e' :: ex
    else ds.take 1 ++ '.' :: (ds.drop 1 ++ 'e' :: ex)

/-- The `f` low decimal digits of `n`, most significant first. -/
def lowDigits : Nat → Nat → List Char
  | 0, _ => []
  | f + 1, n => lowDigits f (n / 10) ++ [Nat.digitChar (n % 10)]

/-- Number::toString (radix 10), as used by template literals. -/
def toString : JSNumber → String
  | nan => "NaN"
  | inf s => if s then "-Infinity" else "Infinity"
  | fin s m e =>
    if m = 0 then "0"
    else String.mk ((if s then ['-'] else []) ++ positiveToString m e)

/-- The integer `n` for which `n / 10^f` is closest to `m * 2^e`, the larger one
of two: the floor of `m * 2^e * 10^f + 1/2`. -/
def nearestScaled (m : Nat) (e : Int) (f : Nat) : Nat :=
  (2 * m * 2 ^ e.toNat * 10 ^ f + 2 ^ (-e).toNat) / (2 * 2 ^ (-e).toNat)

/-- Number.prototype.toFixed(f), for `0 ≤ f ≤ 100`. -/
def toFixed (x : JSNumber) (f : Nat) : String :=
  match x with
  | nan => "NaN"
  | inf s => if s then "-Infinity" else "Infinity"
  | fin s m e =>
    let sign : List Char := if s ∧ m ≠ 0 then ['-'] else []
    if pow10Le 21 m e then String.mk (sign ++ positiveToString m e)
    else
      let n : Nat := nearestScaled m e f
      let ms : List Char := digits n
      if f = 0 then String.mk (sign ++ ms)
      else
        let ms1 : List Char := if ms.length ≤ f then zeros (f + 1 - ms.length) ++ ms else ms
        let k : Nat := ms1.length
        String.mk (sign ++ (ms1.take (k - f) ++ '.' :: ms1.drop (k - f)))

end JSNumber

/-! ## Property lookup on the `alternatives` object literal -/

/-- The ECMAScript values that reading a property of the `alternatives` object
can yield: `undefined`, one of its string entries, or a member inherited from
`Object.prototype` (a built-in function, or `Object.prototype` itself for
`__proto__`). -/
inductive JSValue where
  | undefined : JSValue
  | string (s : String) : JSValue
  | builtinFunction (name : String) : JSValue
  | objectPrototype : JSValue
  deriving DecidableEq, Repr

namespace JSValue

/-- ToBoolean. -/
def toBoolean : JSValue → Bool
  | undefined => false
  | string s => decide (s ≠ "")
  | builtinFunction _ => true
  | objectPrototype => true

/-- The `||` operator: the left operand if it is truthy, else the right one. -/
def or (a b : JSValue) : JSValue := if a.toBoolean then a else b

/-- The operation ToString, as applied by a template literal to a substitution.
The text of a built-in function is the one V8 and JavaScriptCore produce; its
spacing is left to the engine. -/
def toString : JSValue → String
  | undefined => "undefined"
  | string s => s
  | builtinFunction name => "function " ++ name ++ "() \x7b [native code] \x7d"
  | objectPrototype => "[object Object]"

end JSValue

/-- The own data properties of the object literal `alternatives`
(script.js, lines 293-299). -/
def alternatives : List (String × String) :=
  [("gradcam", "Grad-CAM++, Eigen-CAM, or Guided Grad-CAM"),
   ("gradcam++", "Eigen-CAM, LIME, or Integrated Gradients"),
   ("lime", "Grad-CAM, SHAP, or Kernel SHAP"),
   ("eigencam", "Grad-CAM, Grad-CAM++, or Guided Backpropagation"),
   ("guidedgradcam", "Eigen-CAM, LIME, or Integrated Gradients")]

/-- The function-valued properties of `Object.prototype`, which every object
literal inherits. -/
def objectPrototypeFunctions : List String :=
  ["constructor", "hasOwnProperty", "isPrototypeOf", "propertyIsEnumerable",
   "toLocaleString", "toString", "valueOf",
   "__defineGetter__", "__defineSetter__", "__lookupGetter__", "__lookupSetter__"]

/-- The value of `alternatives[key]`: an own property if there is one, else what
the prototype chain (`Object.prototype`, then `null`) supplies. Reading
`constructor` yields the function `Object`; the accessor `__proto__` yields
`Object.prototype`. -/
def alternativesGet (key : String) : JSValue :=
  match alternatives.lookup key with
  | some v => JSValue.string v
  | none =>
    if key ∈ objectPrototypeFunctions then
      JSValue.builtinFunction (if key = "constructor" then "Object" else key)
    else if key = "__proto__" then JSValue.objectPrototype
    else JSValue.undefined

/-- The function `getAlternativeTechniques` (script.js, lines 292-301). -/
def getAlternativeTechniques (currentTechnique : String) : JSValue :=
  (alternativesGet currentTechnique).or
    (JSValue.string "other gradient-based or perturbation-based methods")

/-! ## The analysis request -/

/-- A bounding box: `data.groundTruth` and `data.xaiGenerated`. -/
structure BoundingBox where
  x1 : JSNumber
  y1 : JSNumber
  x2 : JSNumber
  y2 : JSNumber
  deriving DecidableEq, Repr

/-- The object `data.metadata`. -/
structure Metadata where
  xaiTechnique : String
  modelArchitecture : String
  dataset : String
  deriving DecidableEq, Repr

/-- The object `data.images`; an absent image is `null`. -/
structure Images where
  original : Option String
  heatmap : Option String
  deriving DecidableEq, Repr

/-- The object built by `prepareAnalysisData` (script.js, lines 176-203). -/
structure AnalysisData where
  prompt : String
  groundTruth : BoundingBox
  xaiGenerated : BoundingBox
  metadata : Metadata
  images : Images
  deriving DecidableEq, Repr

/-! ## `simulateLLMAnalysis` -/

/-- The constant `gtArea` (line 210). -/
def gtArea (data : AnalysisData) : JSNumber :=
  Math.abs ((data.groundTruth.x2 - data.groundTruth.x1) * (data.groundTruth.y2 - data.groundTruth.y1))

/-- The constant `xaiArea` (line 211). -/
def xaiArea (data : AnalysisData) : JSNumber :=
  Math.abs ((data.xaiGenerated.x2 - data.xaiGenerated.x1) * (data.xaiGenerated.y2 - data.xaiGenerated.y1))

/-- The constant `areaDiff` (line 212). -/
def areaDiff (data : AnalysisData) : JSNumber := Math.abs (gtArea data - xaiArea data)

/-- The constant `areaDiffPercent` (line 213). -/
def areaDiffPercent (data : AnalysisData) : JSNumber := (areaDiff data / gtArea data) * 100

/-- The constant `gtCenterX` (line 216). -/
def gtCenterX (data : AnalysisData) : JSNumber := (data.groundTruth.x1 + data.groundTruth.x2) / 2

/-- The constant `gtCenterY` (line 217). -/
def gtCenterY (data : AnalysisData) : JSNumber := (data.groundTruth.y1 + data.groundTruth.y2) / 2

/-- The constant `xaiCenterX` (line 218). -/
def xaiCenterX (data : AnalysisData) : JSNumber := (data.xaiGenerated.x1 + data.xaiGenerated.x2) / 2

/-- The constant `xaiCenterY` (line 219). -/
def xaiCenterY (data : AnalysisData) : JSNumber := (data.xaiGenerated.y1 + data.xaiGenerated.y2) / 2

/-- The constant `centerDistance` (line 220). -/
def centerDistance (data : AnalysisData) : JSNumber :=
  Math.sqrt (Math.pow2 (gtCenterX data - xaiCenterX data) + Math.pow2 (gtCenterY data - xaiCenterY data))

/-- The template literal of lines 222-289, in order: one string per line of
literal text and one per substitution. -/
def templateParts (data : AnalysisData) : List String :=
  [
    "# XAI Analysis Report\n",
    "\n",
    "## Executive Summary\n",
    "Analysis of ",
    data.metadata.xaiTechnique,
    " performance on ",
    data.metadata.dataset,
    " using ",
    data.metadata.modelArchitecture,
    " architecture.\n",
    "\n",
    "## Quantitative Analysis\n",
    "\n",
    "### Bounding Box Metrics\n",
    "- **Ground Truth Area**: ",
    (gtArea data).toFixed 2,
    " square units\n",
    "- **XAI Generated Area**: ",
    (xaiArea data).toFixed 2,
    " square units\n",
    "- **Area Difference**: ",
    (areaDiff data).toFixed 2,
    " square units (",
    (areaDiffPercent data).toFixed 1,
    "% difference)\n",
    "- **Center Point Distance**: ",
    (centerDistance data).toFixed 2,
    " units\n",
    "\n",
    "### Coordinate Comparison\n",
    "**Ground Truth**: (",
    data.groundTruth.x1.toString,
    ", ",
    data.groundTruth.y1.toString,
    ") to (",
    data.groundTruth.x2.toString,
    ", ",
    data.groundTruth.y2.toString,
    ")\n",
    "**XAI Generated**: (",
    data.xaiGenerated.x1.toString,
    ", ",
    data.xaiGenerated.y1.toString,
    ") to (",
    data.xaiGenerated.x2.toString,
    ", ",
    data.xaiGenerated.y2.toString,
    ")\n",
    "\n",
    "## Qualitative Analysis\n",
    "\n",
    "### Potential Discrepancy Factors\n",
    "\n",
    "1. **XAI Technique Limitations**\n",
    "   - ",
    data.metadata.xaiTechnique,
    " may struggle with complex spatial relationships\n",
    "   - Gradient-based methods can be sensitive to model architecture choices\n",
    "   - Localization accuracy varies based on feature map resolution\n",
    "\n",
    "2. **Model Architecture Impact**\n",
    "   - ",
    data.metadata.modelArchitecture,
    " architecture characteristics affect XAI performance\n",
    "   - Different layer structures produce varying quality explanations\n",
    "   - Skip connections and residual blocks influence gradient flow\n",
    "\n",
    "3. **Dataset-Specific Considerations**\n",
    "   - ",
    data.metadata.dataset,
    " characteristics may affect XAI technique effectiveness\n",
    "   - Image resolution and annotation quality impact results\n",
    "   - Domain-specific features may not be well-captured by current XAI methods\n",
    "\n",
    "## Technical Recommendations\n",
    "\n",
    "### Immediate Improvements\n",
    "1. **Try Alternative XAI Techniques**\n",
    "   - Consider ",
    (getAlternativeTechniques data.metadata.xaiTechnique).toString,
    "\n",
    "   - Experiment with ensemble methods combining multiple XAI approaches\n",
    "\n",
    "2. **Model Architecture Adjustments**\n",
    "   - Fine-tune attention mechanisms for better localization\n",
    "   - Consider adding auxiliary tasks for improved feature learning\n",
    "   - Implement multi-scale feature fusion\n",
    "\n",
    "3. **Preprocessing Enhancements**\n",
    "   - Normalize input images consistently\n",
    "   - Apply data augmentation techniques\n",
    "   - Consider resolution-specific preprocessing\n",
    "\n",
    "### Long-term Strategies\n",
    "1. **Research Directions**\n",
    "   - Investigate attention-based XAI methods\n",
    "   - Explore self-supervised learning for better feature representations\n",
    "   - Consider developing domain-specific XAI techniques\n",
    "\n",
    "2. **Evaluation Framework**\n",
    "   - Implement comprehensive evaluation metrics\n",
    "   - Create benchmark datasets for XAI performance\n",
    "   - Develop automated quality assessment tools\n",
    "\n",
    "## Conclusion\n",
    "The observed discrepancy (",
    (areaDiffPercent data).toFixed 1,
    "% area difference) suggests that while ",
    data.metadata.xaiTechnique,
    " provides useful insights, there\x27s room for improvement in localization accuracy. The ",
    (centerDistance data).toFixed 2,
    " unit center distance indicates moderate spatial alignment issues that should be addressed through the recommended improvements.\n",
    "\n",
    "**Next Steps**: Implement the suggested alternative techniques and architectural modifications to improve XAI performance and achieve better alignment with ground truth annotations."
  ]

/-- The value the promise returned by `simulateLLMAnalysis` resolves to
(script.js, lines 205-290): the template literal evaluates to the concatenation
of its parts. The two-second `setTimeout` that precedes the computation does
not affect the value. -/
def simulateLLMAnalysis (data : AnalysisData) : String :=
  String.join (templateParts data)

/-! ## The quantities the specification speaks about -/

/-- The rectangle with `x1` and `x2` exchanged. -/
def BoundingBox.swapX (r : BoundingBox) : BoundingBox := ⟨r.x2, r.y1, r.x1, r.y2⟩

/-- The rectangle with `y1` and `y2` exchanged. -/
def BoundingBox.swapY (r : BoundingBox) : BoundingBox := ⟨r.x1, r.y2, r.x2, r.y1⟩

/-- The request with the roles of the two rectangles exchanged. -/
def AnalysisData.swapRoles (data : AnalysisData) : AnalysisData :=
  ⟨data.prompt, data.xaiGenerated, data.groundTruth, data.metadata, data.images⟩

/-- Specification, section 3: width of a Rectangle, `x2 - x1`. -/
def BoundingBox.width (r : BoundingBox) : JSNumber := r.x2 - r.x1

/-- Specification, section 3: height of a Rectangle, `y2 - y1`. -/
def BoundingBox.height (r : BoundingBox) : JSNumber := r.y2 - r.y1

/-- Specification, section 3: area of a Rectangle, `|width * height|`. -/
def BoundingBox.area (r : BoundingBox) : JSNumber := Math.abs (r.width * r.height)

/-- Specification, section 3: center of a Rectangle, the midpoint of each
corner pair. -/
def BoundingBox.center (r : BoundingBox) : JSNumber × JSNumber :=
  ((r.x1 + r.x2) / 2, (r.y1 + r.y2) / 2)

/-- Specification, section 4.1 step 4: the Euclidean distance of two points. -/
def euclideanDistance (p q : JSNumber × JSNumber) : JSNumber :=
  Math.sqrt (Math.pow2 (p.1 - q.1) + Math.pow2 (p.2 - q.2))

/-- The normalized form of a technique identifier in the sense of the
specification: lower-cased, with spaces and hyphens removed. -/
def normalizeTechnique (s : String) : String :=
  String.mk ((s.toList.filter (fun c => c ≠ ' ' ∧ c ≠ '-')).map Char.toLower)

/-- The generic suggestion of `getAlternativeTechniques` (line 300). -/
def genericFallback : String := "other gradient-based or perturbation-based methods"

/-- A request with the given rectangles and fixed other fields. -/
def requestOf (gt xai : BoundingBox) : AnalysisData :=
  ⟨"Analyze the discrepancy", gt, xai, ⟨"gradcam", "resnet50", "imagenet"⟩, ⟨none, none⟩⟩

/-- The string `s` is the plain decimal numeral, with exactly `f` digits after
the decimal point, of `x` rounded to `f` decimal places (a tie goes up): the
decimal digits of `n / 10^f`, a point, and the `f` low digits of `n`, for `n`
the floor of `x * 10^f + 1/2`. -/
def IsRoundedDecimal (f : Nat) (x : JSNumber) (s : String) : Prop :=
  ∃ n : Nat, (n : ℚ) ≤ x.toRat * 10 ^ f + 1 / 2 ∧ x.toRat * 10 ^ f + 1 / 2 < (n : ℚ) + 1 ∧
    s = String.mk (Nat.toDigits 10 (n / 10 ^ f) ++ '.' :: JSNumber.lowDigits f n)

/-- The corners of the rectangle are the integers `x1`, `y1`, `x2`, `y2`, each
of magnitude at most `2^25`. -/
def BoundingBox.HasIntegerCorners (r : BoundingBox) (x1 y1 x2 y2 : Int) : Prop :=
  (r.x1.Represents x1 ∧ r.y1.Represents y1 ∧ r.x2.Represents x2 ∧ r.y2.Represents y2) ∧
  (x1.natAbs ≤ 2 ^ 25 ∧ y1.natAbs ≤ 2 ^ 25 ∧ x2.natAbs ≤ 2 ^ 25 ∧ y2.natAbs ≤ 2 ^ 25)

/-! ## Strings -/

namespace JSString

/-- The code points that ECMAScript treats as WhiteSpace or LineTerminator. -/
def isWhiteSpace (c : Char) : Bool :=
  let n := c.toNat
  decide (n = 0x09 ∨ n = 0x0A ∨ n = 0x0B ∨ n = 0x0C ∨ n = 0x0D ∨ n = 0x20 ∨ n = 0xA0 ∨
    n = 0x1680 ∨ (0x2000 ≤ n ∧ n ≤ 0x200A) ∨ n = 0x2028 ∨ n = 0x2029 ∨ n = 0x202F ∨
    n = 0x205F ∨ n = 0x3000 ∨ n = 0xFEFF)

/-- The operation TrimString with `start`: leading white space removed. -/
def trimStart (s : List Char) : List Char := s.dropWhile isWhiteSpace

/-- The method `String.prototype.trim`: leading and trailing white space
removed. -/
def trim (s : String) : String :=
  String.mk (trimStart (trimStart s.toList).reverse).reverse

/-- The method `String.prototype.startsWith` (at position 0). -/
def startsWith (s searchString : String) : Bool := searchString.toList.isPrefixOf s.toList

end JSString

/-! ## The function `parseFloat` -/

namespace JSNumber

/-- The number that a string of decimal digits denotes. -/
def digitsValue (ds : List Char) : Nat := ds.foldl (fun n c => 10 * n + (c.toNat - 48)) 0

/-- The Number value of the decimal `(-1)^neg * d * 10^x`, correctly rounded. -/
def ofDecimal (neg : Bool) (d : Nat) (x : Int) : JSNumber :=
  if d = 0 then fin neg 0 (-1074)
  else if 0 ≤ x then roundNearestEven neg (d * 10 ^ x.toNat) 0 false
  else
    let p : Nat := 10 ^ (-x).toNat
    let k : Nat := bitLength p + 64
    let num : Nat := d * 2 ^ k
    roundNearestEven neg (num / p) (-(k : Int)) (decide (num % p ≠ 0))

/-- The value of the ExponentPart at the head of `cs`, 0 when there is none. -/
def parseExponent (cs : List Char) : Int :=
  match cs with
  | [] => 0
  | c :: rest =>
    if c = 'e' ∨ c = 'E' then
      match rest with
      | '+' :: r =>
        if r.takeWhile Char.isDigit = [] then 0 else (digitsValue (r.takeWhile Char.isDigit) : Int)
      | '-' :: r =>
        if r.takeWhile Char.isDigit = [] then 0 else -(digitsValue (r.takeWhile Char.isDigit) : Int)
      | r =>
        if r.takeWhile Char.isDigit = [] then 0 else (digitsValue (r.takeWhile Char.isDigit) : Int)
    else 0

/-- The value of the longest prefix of `u` that is a StrUnsignedDecimalLiteral,
with the sign `neg`; NaN when no prefix is one. -/
def parseUnsigned (neg : Bool) (u : List Char) : JSNumber :=
  if "Infinity".toList.isPrefixOf u then inf neg
  else
    let ip : List Char := u.takeWhile Char.isDigit
    match u.dropWhile Char.isDigit with
    | '.' :: r =>
      let fp : List Char := r.takeWhile Char.isDigit
      if ip = [] ∧ fp = [] then nan
      else ofDecimal neg (digitsValue (ip ++ fp))
        (parseExponent (r.dropWhile Char.isDigit) - (fp.length : Int))
    | r => if ip = [] then nan else ofDecimal neg (digitsValue ip) (parseExponent r)

end JSNumber

/-- The global function `parseFloat`: leading white space is skipped, and the
longest prefix that is a StrDecimalLiteral is converted; NaN without one. -/
def parseFloat (s : String) : JSNumber :=
  match JSString.trimStart s.toList with
  | '+' :: u => JSNumber.parseUnsigned false u
  | '-' :: u => JSNumber.parseUnsigned true u
  | u => JSNumber.parseUnsigned false u

/-! ## The form (script.js, lines 1-31) -/

/-- The elements `${type}ImageUpload`, `${type}ImagePreview` and
`${type}ImageDisplay` of one image: the two `style.display` values and the
`src` of the image element. -/
structure ImageSlot where
  uploadAreaDisplay : String
  previewDisplay : String
  src : String
  deriving DecidableEq, Repr

/-- The part of the document that the handlers read and write. An input,
select or textarea element is represented by its `value`, which is always a
string; `submitButton` by `disabled` and `innerHTML`; `llmResponse` by its
`innerHTML`. All the elements that the script looks up are taken to exist. -/
structure FormState where
  promptEditor : String
  gtX1 : String
  gtY1 : String
  gtX2 : String
  gtY2 : String
  xaiX1 : String
  xaiY1 : String
  xaiX2 : String
  xaiY2 : String
  xaiTechnique : String
  modelArchitecture : String
  dataset : String
  originalImage : ImageSlot
  heatmapImage : ImageSlot
  submitButtonDisabled : Bool
  submitButtonHTML : String
  llmResponse : String
  deriving DecidableEq, Repr

/-- A file handed to the upload handlers: its MIME `type` and its `size` in
bytes. -/
structure File where
  type : String
  size : Nat
  deriving DecidableEq, Repr

/-- The second argument of the upload handlers, 'original' or 'heatmap'
(lines 448-454). -/
inductive UploadType where
  | original : UploadType
  | heatmap : UploadType
  deriving DecidableEq, Repr

/-- The calls that a handler makes, in order. Those that write to the form
also show in the form that the handler leaves. -/
inductive Call where
  | showNotification (message : String) (type : String) : Call
  | setLoadingState (isLoading : Bool) : Call
  | simulateLLMAnalysis (data : AnalysisData) : Call
  | displayResponse (response : String) : Call
  | localStorageSetItem (key : String) (value : String) : Call
  | consoleError (message : String) : Call
  | readAsDataURL (file : File) : Call
  | displayImagePreview (imageSrc : String) (type : UploadType) : Call
  deriving DecidableEq, Repr

/-! ## Submission (script.js, lines 128-203 and 303-315) -/

/-- The array `requiredFields` of `validateInputs` (lines 163-170). -/
def requiredFields (ui : FormState) : List String :=
  [JSString.trim ui.promptEditor,
   ui.gtX1, ui.gtY1, ui.gtX2, ui.gtY2,
   ui.xaiX1, ui.xaiY1, ui.xaiX2, ui.xaiY2,
   ui.xaiTechnique,
   ui.modelArchitecture,
   ui.dataset]

/-- The constant `hasImages` of `validateInputs` (lines 171-172). -/
def hasImages (ui : FormState) : Bool :=
  decide (ui.originalImage.src ≠ "data:,") || decide (ui.heatmapImage.src ≠ "data:,")

/-- The function `validateInputs` (lines 162-174). The fields are strings, so
the test `field !== null` always passes. -/
def validateInputs (ui : FormState) : Bool :=
  (requiredFields ui).all (fun field => decide (field ≠ "")) && hasImages ui

/-- The function `prepareAnalysisData` (lines 176-203). -/
def prepareAnalysisData (ui : FormState) : AnalysisData :=
  { prompt := JSString.trim ui.promptEditor
    groundTruth :=
      { x1 := parseFloat ui.gtX1
        y1 := parseFloat ui.gtY1
        x2 := parseFloat ui.gtX2
        y2 := parseFloat ui.gtY2 }
    xaiGenerated :=
      { x1 := parseFloat ui.xaiX1
        y1 := parseFloat ui.xaiY1
        x2 := parseFloat ui.xaiX2
        y2 := parseFloat ui.xaiY2 }
    metadata :=
      { xaiTechnique := ui.xaiTechnique
        modelArchitecture := ui.modelArchitecture
        dataset := ui.dataset }
    images :=
      { original := if ui.originalImage.src ≠ "data:," then some ui.originalImage.src else none
        heatmap := if ui.heatmapImage.src ≠ "data:," then some ui.heatmapImage.src else none } }

/-- The function `displayResponse` (lines 303-305). -/
def displayResponse (response : String) (ui : FormState) : FormState :=
  { ui with llmResponse := response }

/-- The function `setLoadingState` (lines 307-315). -/
def setLoadingState (isLoading : Bool) (ui : FormState) : FormState :=
  if isLoading then
    { ui with
      submitButtonDisabled := true
      submitButtonHTML := "<i class=\"fas fa-spinner fa-spin\"></i> Analyzing..." }
  else
    { ui with
      submitButtonDisabled := false
      submitButtonHTML := "<i class=\"fas fa-paper-plane\"></i> Analyze with LLM" }

/-- The text that `handleSubmit` displays when the `try` block throws (line 156). -/
def errorResponse : String :=
  "Error: Unable to complete analysis. Please check your inputs and try again."

/-- The function `handleSubmit` (lines 128-160), run to completion on the form
as it is when the handler starts: the form it leaves and the calls it makes.
`setItemThrows` tells whether `localStorage.setItem` throws, the one statement
of the `try` block that can. -/
def handleSubmit (setItemThrows : Bool) (ui : FormState) : FormState × List Call :=
  if !validateInputs ui then
    (ui, [Call.showNotification "Please fill in all required fields and upload images" "error"])
  else
    let ui1 : FormState := setLoadingState true ui
    let analysisData : AnalysisData := prepareAnalysisData ui1
    let response : String := simulateLLMAnalysis analysisData
    let ui2 : FormState := displayResponse response ui1
    if setItemThrows then
      (setLoadingState false (displayResponse errorResponse ui2),
       [Call.setLoadingState true,
        Call.simulateLLMAnalysis analysisData,
        Call.displayResponse response,
        Call.consoleError "Error during analysis:",
        Call.showNotification "Error during analysis. Please try again." "error",
        Call.displayResponse errorResponse,
        Call.setLoadingState false])
    else
      (setLoadingState false ui2,
       [Call.setLoadingState true,
        Call.simulateLLMAnalysis analysisData,
        Call.displayResponse response,
        Call.localStorageSetItem "xaiAnalysisPrompt" ui2.promptEditor,
        Call.showNotification "Analysis completed successfully!" "success",
        Call.setLoadingState false])

/-! ## Image upload (script.js, lines 457-488) -/

/-- The function `displayImagePreview` (lines 481-488). -/
def displayImagePreview (imageSrc : String) (type : UploadType) (ui : FormState) : FormState :=
  match type with
  | UploadType.original =>
    { ui with originalImage := { uploadAreaDisplay := "none", previewDisplay := "block",
                                 src := imageSrc } }
  | UploadType.heatmap =>
    { ui with heatmapImage := { uploadAreaDisplay := "none", previewDisplay := "block",
                                src := imageSrc } }

/-- The size limit of `validateAndDisplayImage`, `5 * 1024 * 1024` bytes
(line 469). -/
def maxImageSize : Nat := 5 * 1024 * 1024

/-- The function `validateAndDisplayImage` (lines 464-479), together with the
`load` event of the reader it starts: `loaded` is the data URL that the event
delivers, `none` when the read does not complete. `file.size` is a count of
bytes, compared as a natural number. -/
def validateAndDisplayImage (file : File) (type : UploadType) (loaded : Option String)
    (ui : FormState) : FormState × List Call :=
  if !JSString.startsWith file.type "image/" then
    (ui, [Call.showNotification "Please select a valid image file" "error"])
  else if file.size > maxImageSize then
    (ui, [Call.showNotification "Image size must be less than 5MB" "error"])
  else
    match loaded with
    | none => (ui, [Call.readAsDataURL file])
    | some result =>
      (displayImagePreview result type ui,
       [Call.readAsDataURL file,
        Call.displayImagePreview result type,
        Call.showNotification
          ((if type = UploadType.original then "Original" else "Heatmap")
            ++ " image uploaded successfully") "success"])

/-! ## Example forms -/

/-- The image elements before any upload, with the placeholder source
'data:,'. -/
def emptySlot : ImageSlot := ⟨"block", "none", "data:,"⟩

/-- A form in which nothing has been entered. -/
def emptyForm : FormState :=
  { promptEditor := "", gtX1 := "", gtY1 := "", gtX2 := "", gtY2 := "",
    xaiX1 := "", xaiY1 := "", xaiX2 := "", xaiY2 := "",
    xaiTechnique := "", modelArchitecture := "", dataset := "",
    originalImage := emptySlot, heatmapImage := emptySlot,
    submitButtonDisabled := false,
    submitButtonHTML := "<i class=\"fas fa-paper-plane\"></i> Analyze with LLM",
    llmResponse := "" }

/-- A completed form: the rectangles (0,0,10,10) and (5,5,15,15), the three
metadata values, a prompt, and an original image. -/
def filledForm : FormState :=
  { emptyForm with
    promptEditor := "  Analyze the discrepancy \n"
    gtX1 := "0", gtY1 := "0", gtX2 := "10", gtY2 := "10"
    xaiX1 := "5", xaiY1 := "5", xaiX2 := "15", xaiY2 := "15"
    xaiTechnique := "gradcam", modelArchitecture := "resnet50", dataset := "imagenet"
    originalImage := ⟨"none", "block", "data:image/png;base64,iVBORw0KGgo="⟩ }

/-! # Properties

## Arithmetic on Number values -/

set_option maxRecDepth 100000
set_option exponentiation.threshold 5000

namespace JSNumber

theorem sub_def (x y : JSNumber) : x - y = add x (neg y) := rfl
theorem add_def (x y : JSNumber) : x + y = add x y := rfl
theorem mul_def (x y : JSNumber) : x * y = mul x y := rfl
theorem div_def (x y : JSNumber) : x / y = div x y := rfl

/-- The sign passed to the rounding function only labels the result. -/
theorem abs_roundNearestEven (s : Bool) (m : Nat) (e : Int) (st : Bool) :
    Math.abs (roundNearestEven s m e st) = roundNearestEven false m e st := by
  unfold roundNearestEven
  simp only []
  split_ifs <;> rfl

theorem alignedSum_swap_neg (s : Bool) (m : Nat) (e : Int) (t : Bool) (n : Nat) (f : Int) :
    alignedSum t n f (!s) m e = -alignedSum s m e (!t) n f := by
  unfold alignedSum signed
  rw [min_comm f e]
  cases s <;> cases t <;> simp

/-- The magnitude of a difference does not depend on the order of the operands. -/
theorem abs_sub_comm (a b : JSNumber) : Math.abs (a - b) = Math.abs (b - a) := by
  cases a with
  | nan => cases b <;> rfl
  | inf s => cases b with
    | nan => rfl
    | inf t => cases s <;> cases t <;> rfl
    | fin t n f => rfl
  | fin s m e => cases b with
    | nan => rfl
    | inf t => rfl
    | fin t n f =>
      simp only [sub_def, neg, add, alignedSum_swap_neg s m e t n f, neg_eq_zero, Int.natAbs_neg,
        min_comm f e]
      split_ifs
      · rfl
      · simp only [abs_roundNearestEven]

/-- Multiplying by the same factor keeps magnitudes equal. -/
theorem abs_mul_congr_left (x y h : JSNumber) (hxy : Math.abs x = Math.abs y) :
    Math.abs (x * h) = Math.abs (y * h) := by
  cases x with
  | nan => cases y <;> first | rfl | (simp [Math.abs] at hxy)
  | inf s => cases y with
    | nan => simp [Math.abs] at hxy
    | inf t => cases h with
      | nan => rfl
      | inf u => rfl
      | fin u k g => simp only [mul_def, mul]; split_ifs <;> rfl
    | fin t n f => simp [Math.abs] at hxy
  | fin s m e => cases y with
    | nan => simp [Math.abs] at hxy
    | inf t => simp [Math.abs] at hxy
    | fin t n f =>
      simp only [Math.abs, fin.injEq, true_and] at hxy
      obtain ⟨rfl, rfl⟩ := hxy
      cases h with
      | nan => rfl
      | inf u => simp only [mul_def, mul]; split_ifs <;> rfl
      | fin u k g => simp only [mul_def, mul, abs_roundNearestEven]

theorem abs_mul_congr_right (x y h : JSNumber) (hxy : Math.abs x = Math.abs y) :
    Math.abs (h * x) = Math.abs (h * y) := by
  cases x with
  | nan => cases y <;> first | (cases h <;> rfl) | (simp [Math.abs] at hxy)
  | inf s => cases y with
    | nan => simp [Math.abs] at hxy
    | inf t => cases h with
      | nan => rfl
      | inf u => rfl
      | fin u k g => simp only [mul_def, mul]; split_ifs <;> rfl
    | fin t n f => simp [Math.abs] at hxy
  | fin s m e => cases y with
    | nan => simp [Math.abs] at hxy
    | inf t => simp [Math.abs] at hxy
    | fin t n f =>
      simp only [Math.abs, fin.injEq, true_and] at hxy
      obtain ⟨rfl, rfl⟩ := hxy
      cases h with
      | nan => rfl
      | inf u => simp only [mul_def, mul]; split_ifs <;> rfl
      | fin u k g => simp only [mul_def, mul, abs_roundNearestEven]

end JSNumber

/-! ## Special values -/

namespace JSNumber

theorem hundred_eq : (100 : JSNumber) = fin false 7036874417766400 (-46) := by decide

theorem alignedSum_self (s : Bool) (m : Nat) (e : Int) : alignedSum s m e (!s) m e = 0 := by
  unfold alignedSum signed
  cases s <;> simp

/-- A Number minus itself is +0, or NaN when the Number is not finite. -/
theorem sub_self_cases (x : JSNumber) : x - x = nan ∨ x - x = fin false 0 (-1074) := by
  cases x with
  | nan => exact Or.inl rfl
  | inf s => left; cases s <;> rfl
  | fin s m e =>
    right
    simp only [sub_def, neg, add, alignedSum_self, if_true]
    cases s <;> rfl

theorem sub_self_of_isFinite (x : JSNumber) (h : x.isFinite = true) :
    x - x = fin false 0 (-1074) := by
  cases x with
  | nan => simp [isFinite] at h
  | inf s => simp [isFinite] at h
  | fin s m e =>
    simp only [sub_def, neg, add, alignedSum_self, if_true]
    cases s <;> rfl

/-- The magnitude of a product with a zero factor is +0 or NaN. -/
theorem abs_zero_mul_cases (s : Bool) (e : Int) (h : JSNumber) :
    Math.abs (fin s 0 e * h) = nan ∨ Math.abs (fin s 0 e * h) = fin false 0 (-1074) := by
  cases h with
  | nan => exact Or.inl rfl
  | inf t => left; simp [mul_def, mul, Math.abs]
  | fin t n f => right; simp [mul_def, mul, roundNearestEven, Math.abs]

theorem abs_mul_zero_cases (s : Bool) (e : Int) (h : JSNumber) :
    Math.abs (h * fin s 0 e) = nan ∨ Math.abs (h * fin s 0 e) = fin false 0 (-1074) := by
  cases h with
  | nan => exact Or.inl rfl
  | inf t => left; simp [mul_def, mul, Math.abs]
  | fin t n f => right; simp [mul_def, mul, roundNearestEven, Math.abs]

theorem nan_mul (x : JSNumber) : nan * x = nan := by cases x <;> rfl

theorem mul_nan (x : JSNumber) : x * nan = nan := by cases x <;> rfl

theorem nan_div (x : JSNumber) : nan / x = nan := by cases x <;> rfl

theorem div_nan (x : JSNumber) : x / nan = nan := by cases x <;> rfl

theorem nan_sub (x : JSNumber) : nan - x = nan := by cases x <;> rfl

theorem sub_nan (x : JSNumber) : x - nan = nan := by cases x <;> rfl

/-- The function `Math.abs` yields NaN, +Infinity or a finite value with a positive sign. -/
theorem abs_cases (x : JSNumber) :
    Math.abs x = nan ∨ Math.abs x = inf false ∨ ∃ m e, Math.abs x = fin false m e := by
  cases x with
  | nan => exact Or.inl rfl
  | inf s => exact Or.inr (Or.inl rfl)
  | fin s m e => exact Or.inr (Or.inr ⟨m, e, rfl⟩)

end JSNumber

/-! ## The model stays within binary64 -/

namespace JSNumber

theorem bitLengthAux_spec (fuel m : Nat) (h : m ≤ fuel) (hm : m ≠ 0) :
    2 ^ (bitLengthAux fuel m - 1) ≤ m ∧ m < 2 ^ bitLengthAux fuel m := by
  induction fuel generalizing m with
  | zero => omega
  | succ fuel ih =>
    rw [bitLengthAux, if_neg hm, Nat.add_sub_cancel]
    by_cases h2 : m / 2 = 0
    · have h1 : m = 1 := by omega
      subst h1
      cases fuel <;> simp [bitLengthAux]
    · obtain ⟨l, u⟩ := ih (m / 2) (by omega) h2
      have hpos : 1 ≤ bitLengthAux fuel (m / 2) := by
        cases fuel with
        | zero => omega
        | succ k => rw [bitLengthAux, if_neg h2]; omega
      have e1 : 2 ^ bitLengthAux fuel (m / 2) = 2 * 2 ^ (bitLengthAux fuel (m / 2) - 1) := by
        rw [← pow_succ']
        congr 1
        omega
      rw [pow_succ]
      omega

/-- For `m ≠ 0`, `bitLength m` is the `b` with `2^(b-1) ≤ m < 2^b`. -/
theorem bitLength_spec (m : Nat) (hm : m ≠ 0) :
    1 ≤ bitLength m ∧ 2 ^ (bitLength m - 1) ≤ m ∧ m < 2 ^ bitLength m := by
  obtain ⟨l, u⟩ := bitLengthAux_spec m m le_rfl hm
  refine ⟨?_, l, u⟩
  unfold bitLength
  cases m with
  | zero => exact absurd rfl hm
  | succ k => rw [bitLengthAux, if_neg hm]; omega

end JSNumber

namespace Math

theorem isqrtAux_spec (n k r : Nat) (h1 : r * r ≤ n) (h2 : n < (r + 2 ^ k) * (r + 2 ^ k)) :
    isqrtAux n k r * isqrtAux n k r ≤ n ∧ n < (isqrtAux n k r + 1) * (isqrtAux n k r + 1) := by
  induction k generalizing r with
  | zero => simpa [isqrtAux] using ⟨h1, h2⟩
  | succ k ih =>
    rw [isqrtAux]
    split_ifs with h
    · apply ih _ h
      have : r + 2 ^ k + 2 ^ k = r + 2 ^ (k + 1) := by rw [pow_succ]; omega
      rw [this]; exact h2
    · exact ih _ h1 (by omega)

/-- The function `isqrt` is the floor of the square root. -/
theorem isqrt_spec (n : Nat) : isqrt n * isqrt n ≤ n ∧ n < (isqrt n + 1) * (isqrt n + 1) := by
  unfold isqrt
  apply isqrtAux_spec
  · simp
  · by_cases hn : n = 0
    · subst hn; simp
    · obtain ⟨-, -, u⟩ := JSNumber.bitLength_spec n hn
      rw [Nat.zero_add, ← pow_add]
      calc n < 2 ^ JSNumber.bitLength n := u
        _ ≤ 2 ^ (JSNumber.bitLength n / 2 + 1 + (JSNumber.bitLength n / 2 + 1)) :=
          Nat.pow_le_pow_right (by norm_num) (by omega)

theorem isqrt_eq_sqrt (n : Nat) : isqrt n = Nat.sqrt n :=
  Nat.eq_sqrt.mpr (isqrt_spec n)

end Math

namespace JSNumber

/-- Rounding yields a binary64 value: the result of `roundNearestEven` is
canonical. -/
theorem roundNearestEven_canonical (s : Bool) (m : Nat) (e : Int) (st : Bool) :
    (roundNearestEven s m e st).Canonical := by
  unfold roundNearestEven
  by_cases hm : m = 0
  · rw [if_pos hm]; simp [Canonical]
  rw [if_neg hm]
  obtain ⟨hb1, hbl, hbu⟩ := bitLength_spec m hm
  generalize bitLength m = b at hb1 hbl hbu
  simp only []
  generalize he1 : max (e + (b : Int) - 53) (-1074) = e1
  have h1 : -1074 ≤ e1 := by rw [← he1]; exact le_max_right _ _
  have h2 : e + (b : Int) - 53 ≤ e1 := by rw [← he1]; exact le_max_left _ _
  have h3 : e1 = e + (b : Int) - 53 ∨ e1 = -1074 := by
    rw [← he1]; rcases max_choice (e + (b : Int) - 53) (-1074) with h | h <;> simp [h]
  by_cases hexact : e1 ≤ e
  · rw [if_pos hexact]
    by_cases hov : 971 < e1
    · rw [if_pos hov]; trivial
    rw [if_neg hov]
    obtain ⟨k, hk⟩ := Int.eq_ofNat_of_zero_le (sub_nonneg.mpr hexact)
    rw [hk, Int.toNat_ofNat]
    refine ⟨?_, h1, not_lt.mp hov, ?_⟩
    · calc m * 2 ^ k < 2 ^ b * 2 ^ k := Nat.mul_lt_mul_of_pos_right hbu (by positivity)
        _ = 2 ^ (b + k) := (pow_add 2 b k).symm
        _ ≤ 2 ^ 53 := Nat.pow_le_pow_right (by norm_num) (by omega)
    · intro hlt
      rcases h3 with h | h
      · exfalso
        have hk2 : b - 1 + k = 52 := by omega
        have : 2 ^ 52 ≤ m * 2 ^ k := by
          calc 2 ^ 52 = 2 ^ (b - 1) * 2 ^ k := by rw [← pow_add, hk2]
            _ ≤ m * 2 ^ k := Nat.mul_le_mul_right _ hbl
        omega
      · exact h
  · rw [if_neg hexact]
    obtain ⟨sh, hsh⟩ := Int.eq_ofNat_of_zero_le (le_of_lt (sub_pos.mpr (not_le.mp hexact)))
    rw [hsh, Int.toNat_ofNat]
    have hq : m / 2 ^ sh < 2 ^ 53 := by
      rw [Nat.div_lt_iff_lt_mul (by positivity)]
      calc m < 2 ^ b := hbu
        _ ≤ 2 ^ (53 + sh) := Nat.pow_le_pow_right (by norm_num) (by omega)
        _ = 2 ^ 53 * 2 ^ sh := pow_add 2 53 sh
    generalize hup : (decide (2 ^ (sh - 1) < m % 2 ^ sh) ||
      (decide (m % 2 ^ sh = 2 ^ (sh - 1)) && (st || decide (m / 2 ^ sh % 2 = 1)))) = up
    have hq1 : (if up = true then m / 2 ^ sh + 1 else m / 2 ^ sh) ≤ 2 ^ 53 := by
      split_ifs <;> omega
    have hq1' : m / 2 ^ sh ≤ (if up = true then m / 2 ^ sh + 1 else m / 2 ^ sh) := by
      split_ifs <;> omega
    generalize (if up = true then m / 2 ^ sh + 1 else m / 2 ^ sh) = q1 at hq1 hq1'
    by_cases hc : q1 = 2 ^ 53
    · rw [if_pos hc, if_pos hc]
      by_cases hov : 971 < e1 + 1
      · rw [if_pos hov]; trivial
      · rw [if_neg hov]
        exact ⟨by norm_num, by omega, by omega, fun h => absurd h (lt_irrefl _)⟩
    · rw [if_neg hc, if_neg hc]
      by_cases hov : 971 < e1
      · rw [if_pos hov]; trivial
      · rw [if_neg hov]
        refine ⟨by omega, h1, by omega, ?_⟩
        intro hlt
        rcases h3 with h | h
        · exfalso
          have hb : b = 53 + sh := by omega
          have : 2 ^ 52 ≤ m / 2 ^ sh := by
            rw [Nat.le_div_iff_mul_le (by positivity), ← pow_add]
            have : 52 + sh = b - 1 := by omega
            rw [this]; exact hbl
          omega
        · exact h

theorem zero_canonical (s : Bool) : (fin s 0 (-1074)).Canonical := by simp [Canonical]

theorem add_canonical (a b : JSNumber) (ha : a.Canonical) (hb : b.Canonical) :
    (a + b).Canonical := by
  cases a with
  | nan => cases b <;> trivial
  | inf s => cases b with
    | nan => trivial
    | inf t => simp only [add_def, add]; split_ifs <;> trivial
    | fin t n f => trivial
  | fin s m e => cases b with
    | nan => trivial
    | inf t => trivial
    | fin t n f =>
      simp only [add_def, add]
      split_ifs
      · exact zero_canonical _
      · exact roundNearestEven_canonical _ _ _ _

theorem neg_canonical (a : JSNumber) (ha : a.Canonical) : (neg a).Canonical := by
  cases a <;> exact ha

theorem sub_canonical (a b : JSNumber) (ha : a.Canonical) (hb : b.Canonical) :
    (a - b).Canonical :=
  add_canonical a (neg b) ha (neg_canonical b hb)

theorem mul_canonical (a b : JSNumber) : (a * b).Canonical := by
  cases a with
  | nan => rw [nan_mul]; trivial
  | inf s => cases b with
    | nan => trivial
    | inf t => trivial
    | fin t n f => simp only [mul_def, mul]; split_ifs <;> trivial
  | fin s m e => cases b with
    | nan => trivial
    | inf t => simp only [mul_def, mul]; split_ifs <;> trivial
    | fin t n f => exact roundNearestEven_canonical _ _ _ _

theorem div_canonical (a b : JSNumber) : (a / b).Canonical := by
  cases a with
  | nan => rw [nan_div]; trivial
  | inf s => cases b <;> trivial
  | fin s m e => cases b with
    | nan => trivial
    | inf t => exact zero_canonical _
    | fin t n f =>
      simp only [div_def, div]
      split_ifs
      · trivial
      · trivial
      · exact zero_canonical _
      · exact roundNearestEven_canonical _ _ _ _

theorem abs_canonical (a : JSNumber) (ha : a.Canonical) : (Math.abs a).Canonical := by
  cases a with
  | nan => trivial
  | inf s => trivial
  | fin s m e => exact ha

theorem sqrt_canonical (a : JSNumber) : (Math.sqrt a).Canonical := by
  cases a with
  | nan => trivial
  | inf s => simp only [Math.sqrt]; split_ifs <;> trivial
  | fin s m e =>
    simp only [Math.sqrt]
    split_ifs
    · exact zero_canonical _
    · trivial
    · exact roundNearestEven_canonical _ _ _ _

end JSNumber

/-- Every metric of `simulateLLMAnalysis` is a binary64 value, whatever the
request. -/
theorem metrics_canonical (data : AnalysisData) :
    (gtArea data).Canonical ∧ (xaiArea data).Canonical ∧ (areaDiff data).Canonical ∧
    (areaDiffPercent data).Canonical ∧ (centerDistance data).Canonical :=
  have h1 : (gtArea data).Canonical := JSNumber.abs_canonical _ (JSNumber.mul_canonical _ _)
  have h2 : (xaiArea data).Canonical := JSNumber.abs_canonical _ (JSNumber.mul_canonical _ _)
  ⟨h1, h2, JSNumber.abs_canonical _ (JSNumber.sub_canonical _ _ h1 h2),
    JSNumber.mul_canonical _ _, JSNumber.sqrt_canonical _⟩

/-! ## Exact results

An operation whose exact result is a binary64 value returns that value. -/

namespace JSNumber

/-- The number of binary digits is determined by the binade. -/
theorem bitLength_unique (n b : Nat) (hl : 2 ^ (b - 1) ≤ n) (hu : n < 2 ^ b) (hb : 1 ≤ b) :
    bitLength n = b := by
  have hn : n ≠ 0 := by
    have : 0 < 2 ^ (b - 1) := by positivity
    omega
  obtain ⟨h1, h2, h3⟩ := bitLength_spec n hn
  have a1 : bitLength n - 1 < b := (Nat.pow_lt_pow_iff_right (by norm_num : 1 < 2)).mp (lt_of_le_of_lt h2 hu)
  have a2 : b - 1 < bitLength n := (Nat.pow_lt_pow_iff_right (by norm_num : 1 < 2)).mp (lt_of_le_of_lt hl h3)
  omega

theorem bitLength_mul_pow (q k : Nat) (hq : q ≠ 0) : bitLength (q * 2 ^ k) = bitLength q + k := by
  obtain ⟨h1, h2, h3⟩ := bitLength_spec q hq
  apply bitLength_unique
  · have : bitLength q + k - 1 = (bitLength q - 1) + k := by omega
    rw [this, pow_add]
    exact Nat.mul_le_mul_right _ h2
  · rw [pow_add]
    exact Nat.mul_lt_mul_of_pos_right h3 (by positivity)
  · omega

/-- The exponent that rounding selects for a magnitude in the binade of the
canonical value `q * 2^e'` is `e'`. -/
theorem roundingExponent_eq (q : Nat) (e' : Int) (s : Bool) (hq : q ≠ 0)
    (hc : (fin s q e').Canonical) :
    max (e' + (bitLength q : Int) - 53) (-1074) = e' := by
  obtain ⟨c1, c2, c3, c4⟩ := hc
  obtain ⟨h1, h2, h3⟩ := bitLength_spec q hq
  have hb53 : bitLength q ≤ 53 := by
    by_contra h
    have : 2 ^ 53 ≤ 2 ^ (bitLength q - 1) := Nat.pow_le_pow_right (by norm_num) (by omega)
    omega
  by_cases h52 : q < 2 ^ 52
  · rw [c4 h52]
    apply max_eq_right
    omega
  · have : bitLength q = 53 := by
      by_contra h
      have : 2 ^ bitLength q ≤ 2 ^ 52 := Nat.pow_le_pow_right (by norm_num) (by omega)
      omega
    rw [this]
    have h0 : e' + ((53 : Nat) : Int) - 53 = e' := by omega
    rw [h0]
    exact max_eq_left c2

/-- Rounding is the identity on binary64 values: a magnitude `q * 2^k` with
exponent `e' - k` rounds to the canonical `q * 2^e'`. -/
theorem roundNearestEven_exact_shift (s : Bool) (q k : Nat) (e' : Int) (hq : q ≠ 0)
    (hc : (fin s q e').Canonical) :
    roundNearestEven s (q * 2 ^ k) (e' - k) false = fin s q e' := by
  have hm : q * 2 ^ k ≠ 0 := Nat.mul_ne_zero hq (by positivity)
  have he1 : max (e' - (k : Int) + ((bitLength (q * 2 ^ k) : Nat) : Int) - 53) (-1074) = e' := by
    rw [bitLength_mul_pow q k hq]
    have := roundingExponent_eq q e' s hq hc
    push_cast
    rw [show e' - (k : Int) + ((bitLength q : Int) + (k : Int)) - 53
      = e' + (bitLength q : Int) - 53 by ring]
    exact this
  obtain ⟨c1, c2, c3, c4⟩ := hc
  unfold roundNearestEven
  rw [if_neg hm]
  simp only [he1]
  by_cases hk : k = 0
  · subst hk
    simp only [Nat.cast_zero, sub_zero, le_refl, if_true, sub_self, Int.toNat_zero, pow_zero,
      mul_one]
    rw [if_neg (by omega)]
  · have hlt : ¬ e' ≤ e' - (k : Int) := by omega
    rw [if_neg hlt]
    have hsh : (e' - (e' - (k : Int))).toNat = k := by omega
    rw [hsh]
    have hpos : 0 < 2 ^ k := by positivity
    have hdiv : q * 2 ^ k / 2 ^ k = q := Nat.mul_div_cancel _ hpos
    have hmod : q * 2 ^ k % 2 ^ k = 0 := Nat.mul_mod_left _ _
    have hhalf : 0 < 2 ^ (k - 1) := by positivity
    rw [hdiv, hmod]
    have h1 : decide (2 ^ (k - 1) < 0) = false := by simp
    have h2 : decide (0 = 2 ^ (k - 1)) = false := by
      rw [decide_eq_false_iff_not]; omega
    rw [h1, h2]
    simp only [Bool.false_and, Bool.or_false, Bool.false_eq_true, if_false]
    rw [if_neg (by omega), if_neg (by omega), if_neg (by omega)]

/-- Rounding is the identity on binary64 values: a magnitude `m` with exponent
`e' + k`, where `m * 2^k = q`, rounds to the canonical `q * 2^e'`. -/
theorem roundNearestEven_exact_unshift (s : Bool) (m k : Nat) (e' : Int) (hm : m ≠ 0)
    (hc : (fin s (m * 2 ^ k) e').Canonical) :
    roundNearestEven s m (e' + k) false = fin s (m * 2 ^ k) e' := by
  have hq : m * 2 ^ k ≠ 0 := Nat.mul_ne_zero hm (by positivity)
  have he1 : max (e' + (k : Int) + ((bitLength m : Nat) : Int) - 53) (-1074) = e' := by
    have := roundingExponent_eq (m * 2 ^ k) e' s hq hc
    rw [bitLength_mul_pow m k hm] at this
    push_cast at this
    rw [show e' + (k : Int) + (bitLength m : Int) - 53
      = e' + ((bitLength m : Int) + (k : Int)) - 53 by ring]
    exact this
  obtain ⟨c1, c2, c3, c4⟩ := hc
  unfold roundNearestEven
  rw [if_neg hm]
  simp only [he1]
  rw [if_pos (by omega), if_neg (by omega)]
  have : (e' + (k : Int) - e').toNat = k := by omega
  rw [this]

/-- Two dyadic magnitudes are equal exactly when one significand is the other
shifted by the difference of the exponents. -/
theorem dyadic_eq (a b : Nat) (x y : Int) (h : (a : ℚ) * 2 ^ x = (b : ℚ) * 2 ^ y) :
    (x ≤ y → a = b * 2 ^ (y - x).toNat) ∧ (y ≤ x → a * 2 ^ (x - y).toNat = b) := by
  have h2 : (2 : ℚ) ≠ 0 := by norm_num
  constructor
  · intro hxy
    obtain ⟨k, hk⟩ := Int.eq_ofNat_of_zero_le (sub_nonneg.mpr hxy)
    have hy : y = x + k := by omega
    rw [hk, Int.toNat_ofNat]
    rw [hy, zpow_add₀ h2, zpow_natCast] at h
    have h3 : (a : ℚ) * 2 ^ x = ((b : ℚ) * 2 ^ k) * 2 ^ x := by rw [h]; ring
    have h4 := mul_right_cancel₀ (zpow_ne_zero x h2) h3
    exact_mod_cast h4
  · intro hyx
    obtain ⟨k, hk⟩ := Int.eq_ofNat_of_zero_le (sub_nonneg.mpr hyx)
    have hx : x = y + k := by omega
    rw [hk, Int.toNat_ofNat]
    rw [hx, zpow_add₀ h2, zpow_natCast] at h
    have h3 : ((a : ℚ) * 2 ^ k) * 2 ^ y = (b : ℚ) * 2 ^ y := by rw [← h]; ring
    have h4 := mul_right_cancel₀ (zpow_ne_zero y h2) h3
    exact_mod_cast h4

/-- Rounding returns a binary64 value that it is given: if the magnitude
`m * 2^e` equals that of the canonical `q * 2^e'`, the result is `q * 2^e'`. -/
theorem roundNearestEven_of_eq (s : Bool) (m q : Nat) (e e' : Int) (hq : q ≠ 0)
    (hc : (fin s q e').Canonical) (h : (m : ℚ) * 2 ^ e = (q : ℚ) * 2 ^ e') :
    roundNearestEven s m e false = fin s q e' := by
  obtain ⟨h1, h2⟩ := dyadic_eq m q e e' h
  rcases le_total e e' with hle | hle
  · have hm := h1 hle
    obtain ⟨k, hk⟩ := Int.eq_ofNat_of_zero_le (sub_nonneg.mpr hle)
    rw [hk, Int.toNat_ofNat] at hm
    have he : e = e' - k := by omega
    rw [hm, he]
    exact roundNearestEven_exact_shift s q k e' hq hc
  · have hm := h2 hle
    obtain ⟨k, hk⟩ := Int.eq_ofNat_of_zero_le (sub_nonneg.mpr hle)
    rw [hk, Int.toNat_ofNat] at hm
    have he : e = e' + k := by omega
    have hm0 : m ≠ 0 := by
      rintro rfl
      rw [Nat.zero_mul] at hm
      exact hq hm.symm
    subst hm
    rw [he]
    exact roundNearestEven_exact_unshift s m k e' hm0 hc

theorem toRat_fin (s : Bool) (m : Nat) (e : Int) :
    (fin s m e).toRat = (signed s m : ℚ) * 2 ^ e := by
  unfold toRat signed
  cases s <;> simp

/-- The aligned sum is the exact sum of the two values. -/
theorem alignedSum_toRat (s : Bool) (m : Nat) (e : Int) (t : Bool) (n : Nat) (f : Int) :
    ((alignedSum s m e t n f : Int) : ℚ) * 2 ^ (min e f)
      = (fin s m e).toRat + (fin t n f).toRat := by
  have h2 : (2 : ℚ) ≠ 0 := by norm_num
  rw [toRat_fin, toRat_fin]
  unfold alignedSum signed
  obtain ⟨j, hj⟩ := Int.eq_ofNat_of_zero_le (sub_nonneg.mpr (min_le_left e f))
  obtain ⟨k, hk⟩ := Int.eq_ofNat_of_zero_le (sub_nonneg.mpr (min_le_right e f))
  rw [hj, hk, Int.toNat_ofNat, Int.toNat_ofNat]
  have he : e = min e f + j := by omega
  have hf : f = min e f + k := by omega
  generalize min e f = e0 at *
  subst he hf
  rw [zpow_add₀ h2, zpow_add₀ h2, zpow_natCast, zpow_natCast]
  cases s <;> cases t <;> simp <;> ring

theorem sign_magnitude (u : Bool) (q : Nat) (e' : Int) (c : Int) (e0 : Int) (hc : c ≠ 0)
    (h : (signed u q : ℚ) * 2 ^ e' = (c : ℚ) * 2 ^ e0) :
    q ≠ 0 ∧ u = decide (c < 0) ∧ (c.natAbs : ℚ) * 2 ^ e0 = (q : ℚ) * 2 ^ e' := by
  have p1 : (0 : ℚ) < 2 ^ e' := by positivity
  have p2 : (0 : ℚ) < 2 ^ e0 := by positivity
  have hq : q ≠ 0 := by
    rintro rfl
    have : (c : ℚ) * 2 ^ e0 = 0 := by rw [← h]; simp [signed]
    rcases mul_eq_zero.mp this with h0 | h0
    · exact hc (by exact_mod_cast h0)
    · exact absurd h0 (ne_of_gt p2)
  have hqpos : (0 : ℚ) < q := by exact_mod_cast Nat.pos_of_ne_zero hq
  refine ⟨hq, ?_⟩
  cases u with
  | true =>
    have hneg : (c : ℚ) * 2 ^ e0 < 0 := by
      rw [← h]; simp only [signed, if_true]; push_cast
      have := mul_pos hqpos p1
      linarith
    have hc0 : c < 0 := by
      by_contra hge
      have : (0 : ℚ) ≤ c := by exact_mod_cast not_lt.mp hge
      have := mul_nonneg this (le_of_lt p2)
      linarith
    refine ⟨by simp [hc0], ?_⟩
    have habs : ((c.natAbs : Nat) : ℚ) = -(c : ℚ) := by
      rw [Nat.cast_natAbs, Int.cast_abs, abs_of_neg (by exact_mod_cast hc0)]
    rw [habs]
    simp only [signed, if_true] at h
    push_cast at h
    linarith
  | false =>
    have hpos : 0 < (c : ℚ) * 2 ^ e0 := by
      rw [← h]; simp only [signed, Bool.false_eq_true, if_false]; push_cast
      exact mul_pos hqpos p1
    have hc0 : 0 < c := by
      by_contra hle
      have : (c : ℚ) ≤ 0 := by exact_mod_cast not_lt.mp hle
      have := mul_nonpos_of_nonpos_of_nonneg this (le_of_lt p2)
      linarith
    refine ⟨by simp [not_lt.mpr (le_of_lt hc0)], ?_⟩
    have habs : ((c.natAbs : Nat) : ℚ) = (c : ℚ) := by
      rw [Nat.cast_natAbs, Int.cast_abs, abs_of_pos (by exact_mod_cast hc0)]
    rw [habs]
    simp only [signed, Bool.false_eq_true, if_false] at h
    push_cast at h
    linarith

theorem zero_represents (s : Bool) : Represents (fin s 0 (-1074)) 0 :=
  ⟨zero_canonical s, rfl, by simp [toRat]⟩

/-- Rounding the exact value of a binary64 Number returns that Number. -/
theorem roundNearestEven_represents (c : Int) (e0 : Int) (hc : c ≠ 0) (r : JSNumber)
    (hr : Represents r ((c : ℚ) * 2 ^ e0)) :
    roundNearestEven (decide (c < 0)) c.natAbs e0 false = r := by
  obtain ⟨hcan, hfin, hval⟩ := hr
  cases r with
  | nan => simp [isFinite] at hfin
  | inf u => simp [isFinite] at hfin
  | fin u q e' =>
    rw [toRat_fin] at hval
    obtain ⟨hq, hu, hmag⟩ := sign_magnitude u q e' c e0 hc hval
    subst hu
    exact roundNearestEven_of_eq _ _ q e0 e' hq hcan hmag

/-- Addition is exact whenever the exact sum is a binary64 value. -/
theorem add_represents (a b : JSNumber) (va vb : ℚ) (ha : Represents a va)
    (hb : Represents b vb) (hr : ∃ r, Represents r (va + vb)) :
    Represents (a + b) (va + vb) := by
  obtain ⟨-, haf, hav⟩ := ha
  obtain ⟨-, hbf, hbv⟩ := hb
  obtain ⟨r, hr⟩ := hr
  cases a with
  | nan => simp [isFinite] at haf
  | inf s => simp [isFinite] at haf
  | fin s m e =>
    cases b with
    | nan => simp [isFinite] at hbf
    | inf t => simp [isFinite] at hbf
    | fin t n f =>
      have hsum := alignedSum_toRat s m e t n f
      rw [hav, hbv] at hsum
      simp only [add_def, add]
      by_cases hc : alignedSum s m e t n f = 0
      · rw [if_pos hc]
        rw [hc] at hsum
        have : va + vb = 0 := by rw [← hsum]; simp
        rw [this]
        exact zero_represents _
      · rw [if_neg hc]
        rw [← hsum] at hr
        rw [roundNearestEven_represents _ _ hc r hr]
        rw [← hsum]
        exact hr

theorem neg_represents (a : JSNumber) (v : ℚ) (ha : Represents a v) : Represents (neg a) (-v) := by
  obtain ⟨hc, hf, hv⟩ := ha
  cases a with
  | nan => simp [isFinite] at hf
  | inf s => simp [isFinite] at hf
  | fin s m e =>
    refine ⟨hc, rfl, ?_⟩
    rw [← hv]
    simp only [neg, toRat]
    cases s <;> simp

/-- Subtraction is exact whenever the exact difference is a binary64 value. -/
theorem sub_represents (a b : JSNumber) (va vb : ℚ) (ha : Represents a va)
    (hb : Represents b vb) (hr : ∃ r, Represents r (va - vb)) :
    Represents (a - b) (va - vb) := by
  rw [sub_eq_add_neg] at hr ⊢
  exact add_represents a (neg b) va (-vb) ha (neg_represents b vb hb) hr

/-- Multiplication is exact whenever the exact product is a binary64 value. -/
theorem mul_represents (a b : JSNumber) (va vb : ℚ) (ha : Represents a va)
    (hb : Represents b vb) (hr : ∃ r, Represents r (va * vb)) :
    Represents (a * b) (va * vb) := by
  obtain ⟨-, haf, hav⟩ := ha
  obtain ⟨-, hbf, hbv⟩ := hb
  obtain ⟨r, hr⟩ := hr
  cases a with
  | nan => simp [isFinite] at haf
  | inf s => simp [isFinite] at haf
  | fin s m e =>
    cases b with
    | nan => simp [isFinite] at hbf
    | inf t => simp [isFinite] at hbf
    | fin t n f =>
      simp only [mul_def, mul]
      have hprod : ((signed (xor s t) (m * n) : Int) : ℚ) * 2 ^ (e + f) = va * vb := by
        rw [← hav, ← hbv, toRat_fin, toRat_fin, zpow_add₀ (by norm_num : (2 : ℚ) ≠ 0)]
        unfold signed
        cases s <;> cases t <;> simp <;> ring
      by_cases hz : m * n = 0
      · rw [hz] at hprod ⊢
        have : va * vb = 0 := by rw [← hprod]; simp [signed]
        rw [this]
        have h0 : roundNearestEven (xor s t) 0 (e + f) false = fin (xor s t) 0 (-1074) := by
          simp [roundNearestEven]
        rw [h0]
        exact zero_represents _
      · have hc : signed (xor s t) (m * n) ≠ 0 := by
          unfold signed
          split_ifs <;> omega
        rw [← hprod] at hr
        have hrnd := roundNearestEven_represents _ _ hc r hr
        have hs : decide (signed (xor s t) (m * n) < 0) = xor s t := by
          unfold signed
          cases xor s t <;> simp <;> omega
        have hn : (signed (xor s t) (m * n)).natAbs = m * n := by
          unfold signed
          split_ifs <;> omega
        rw [hs, hn] at hrnd
        rw [hrnd, ← hprod]
        exact hr

theorem abs_represents (a : JSNumber) (v : ℚ) (ha : Represents a v) :
    Represents (Math.abs a) |v| := by
  obtain ⟨hc, hf, hv⟩ := ha
  cases a with
  | nan => simp [isFinite] at hf
  | inf s => simp [isFinite] at hf
  | fin s m e =>
    refine ⟨hc, rfl, ?_⟩
    rw [← hv]
    simp only [Math.abs, toRat]
    have p : (0 : ℚ) ≤ (m : ℚ) * 2 ^ e := by positivity
    cases s with
    | true =>
      simp only [if_true, Bool.false_eq_true, if_false, one_mul]
      rw [show (-1 : ℚ) * (m : ℚ) * 2 ^ e = -((m : ℚ) * 2 ^ e) by ring, abs_neg, abs_of_nonneg p]
    | false =>
      simp only [Bool.false_eq_true, if_false, one_mul]
      rw [abs_of_nonneg p]

/-- Every integer of magnitude below `2^53` is a binary64 value. -/
theorem int_representable (k : Int) (h : k.natAbs < 2 ^ 53) : ∃ r, Represents r (k : ℚ) := by
  by_cases hk : k = 0
  · subst hk
    exact ⟨fin false 0 (-1074), by simpa using zero_represents false⟩
  have hn : k.natAbs ≠ 0 := by omega
  obtain ⟨h1, h2, h3⟩ := bitLength_spec k.natAbs hn
  generalize hb : bitLength k.natAbs = b at h1 h2 h3
  have hb53 : b ≤ 53 := by
    by_contra hgt
    have : 2 ^ 53 ≤ 2 ^ (b - 1) := Nat.pow_le_pow_right (by norm_num) (by omega)
    omega
  refine ⟨fin (decide (k < 0)) (k.natAbs * 2 ^ (53 - b)) (-((53 - b : Nat) : Int)), ?_, rfl, ?_⟩
  · refine ⟨?_, by omega, by omega, ?_⟩
    · calc k.natAbs * 2 ^ (53 - b) < 2 ^ b * 2 ^ (53 - b) :=
            Nat.mul_lt_mul_of_pos_right h3 (by positivity)
        _ = 2 ^ 53 := by rw [← pow_add]; congr 1; omega
    · intro hlt
      exfalso
      have : 2 ^ 52 ≤ k.natAbs * 2 ^ (53 - b) := by
        calc 2 ^ 52 = 2 ^ (b - 1) * 2 ^ (53 - b) := by rw [← pow_add]; congr 1; omega
          _ ≤ k.natAbs * 2 ^ (53 - b) := Nat.mul_le_mul_right _ h2
      omega
  · simp only [toRat]
    rw [zpow_neg, zpow_natCast]
    push_cast
    have p : (2 : ℚ) ^ (53 - b) ≠ 0 := by positivity
    by_cases hneg : k < 0
    · have : ((k.natAbs : Nat) : ℚ) = -(k : ℚ) := by
        rw [Nat.cast_natAbs, Int.cast_abs, abs_of_neg (by exact_mod_cast hneg)]
      simp only [hneg, decide_True, if_true, this]
      field_simp
    · have : ((k.natAbs : Nat) : ℚ) = (k : ℚ) := by
        rw [Nat.cast_natAbs, Int.cast_abs, abs_of_nonneg (by exact_mod_cast not_lt.mp hneg)]
      simp only [hneg, decide_False, Bool.false_eq_true, if_false, this]
      field_simp

/-- A natural-number literal below `2^53` denotes exactly that number. -/
theorem ofNat_represents (n : Nat) (h : n < 2 ^ 53) : Represents (ofNat n) (n : ℚ) := by
  by_cases hn : n = 0
  · subst hn
    simpa [ofNat, roundNearestEven] using zero_represents false
  · obtain ⟨r, hr⟩ := int_representable (n : Int) (by simpa using h)
    have hc : (n : Int) ≠ 0 := by exact_mod_cast hn
    have hr' : Represents r (((n : Int) : ℚ) * 2 ^ (0 : Int)) := by simpa using hr
    have hrnd := roundNearestEven_represents (n : Int) 0 hc r hr'
    have hs : decide ((n : Int) < 0) = false := by simp
    rw [hs, Int.natAbs_ofNat] at hrnd
    unfold ofNat
    rw [hrnd]
    simpa using hr

end JSNumber

/-! ## Decimal digits -/

namespace JSNumber

theorem toDigitsCore_append (fuel n : Nat) (ds : List Char) :
    Nat.toDigitsCore 10 fuel n ds = Nat.toDigitsCore 10 fuel n [] ++ ds := by
  induction fuel generalizing n ds with
  | zero => simp [Nat.toDigitsCore]
  | succ fuel ih =>
    simp only [Nat.toDigitsCore]
    split_ifs
    · simp
    · rw [ih (n / 10) (Nat.digitChar (n % 10) :: ds), ih (n / 10) [Nat.digitChar (n % 10)]]
      simp

theorem toDigitsCore_fuel (fuel fuel' n : Nat) (h : n < fuel) (h' : n < fuel') :
    Nat.toDigitsCore 10 fuel n [] = Nat.toDigitsCore 10 fuel' n [] := by
  induction fuel generalizing n fuel' with
  | zero => omega
  | succ fuel ih =>
    cases fuel' with
    | zero => omega
    | succ fuel' =>
      simp only [Nat.toDigitsCore]
      split_ifs with h0
      · rfl
      · have hlt : n / 10 < n := Nat.div_lt_self (by omega) (by omega)
        rw [toDigitsCore_append fuel, toDigitsCore_append fuel',
          ih fuel' (n / 10) (by omega) (by omega)]

theorem toDigits_unfold (n : Nat) :
    Nat.toDigits 10 n = if n / 10 = 0 then [Nat.digitChar (n % 10)]
      else Nat.toDigitsCore 10 n (n / 10) [Nat.digitChar (n % 10)] := by
  simp only [Nat.toDigits, Nat.toDigitsCore]

theorem digits_of_lt {n : Nat} (h : n < 10) : digits n = [Nat.digitChar n] := by
  rw [digits, toDigits_unfold, if_pos (by omega), Nat.mod_eq_of_lt h]

theorem digits_of_ge {n : Nat} (h : 10 ≤ n) :
    digits n = digits (n / 10) ++ [Nat.digitChar (n % 10)] := by
  rw [digits, digits, toDigits_unfold n, if_neg (by omega), toDigitsCore_append, Nat.toDigits,
    toDigitsCore_fuel n (n / 10 + 1) (n / 10) (Nat.div_lt_self (by omega) (by omega)) (by omega)]

theorem digits_length_pos (n : Nat) : 0 < (digits n).length := by
  by_cases h : n < 10
  · rw [digits_of_lt h]; simp
  · rw [digits_of_ge (by omega)]; simp

theorem lowDigits_length (f n : Nat) : (lowDigits f n).length = f := by
  induction f generalizing n with
  | zero => rfl
  | succ f ih => simp [lowDigits, ih]

theorem lowDigits_zero (f : Nat) : lowDigits f 0 = zeros f := by
  induction f with
  | zero => rfl
  | succ f ih =>
    simp only [lowDigits, Nat.zero_div, ih, zeros]
    have h0 : (0 % 10).digitChar = '0' := rfl
    rw [h0, List.replicate_succ']

/-- The digits of `n`, padded with zeros to more than `f` digits, are the digits
of `n / 10^f` followed by the `f` low digits of `n`. -/
theorem padded_digits (f n : Nat) :
    (if (digits n).length ≤ f then zeros (f + 1 - (digits n).length) ++ digits n else digits n)
      = digits (n / 10 ^ f) ++ lowDigits f n := by
  induction f generalizing n with
  | zero =>
    have := digits_length_pos n
    rw [if_neg (by omega)]
    simp [lowDigits]
  | succ f ih =>
    by_cases h : n < 10
    · have h0 : n / 10 ^ (f + 1) = 0 := by
        apply Nat.div_eq_of_lt
        calc n < 10 := h
          _ = 10 ^ 1 := by norm_num
          _ ≤ 10 ^ (f + 1) := Nat.pow_le_pow_right (by norm_num) (by omega)
      have h1 : n / 10 = 0 := by omega
      rw [digits_of_lt h, h0, lowDigits, h1, lowDigits_zero, digits_of_lt (by norm_num : 0 < 10)]
      simp only [List.length_singleton]
      rw [if_pos (by omega)]
      have : f + 1 + 1 - 1 = f + 1 := by omega
      rw [this, zeros, List.replicate_succ, Nat.mod_eq_of_lt h]
      have h00 : Nat.digitChar 0 = '0' := rfl
      simp [zeros, h00]
    · have hge : 10 ≤ n := by omega
      have hdiv : n / 10 ^ (f + 1) = n / 10 / 10 ^ f := by
        rw [Nat.div_div_eq_div_mul, pow_succ, mul_comm]
      rw [digits_of_ge hge, hdiv, lowDigits,
        show digits (n / 10 / 10 ^ f) ++ (lowDigits f (n / 10) ++ [Nat.digitChar (n % 10)])
          = (digits (n / 10 / 10 ^ f) ++ lowDigits f (n / 10)) ++ [Nat.digitChar (n % 10)]
          from (List.append_assoc _ _ _).symm,
        ← ih (n / 10)]
      simp only [List.length_append, List.length_singleton]
      by_cases hl : (digits (n / 10)).length ≤ f
      · rw [if_pos (by omega), if_pos hl]
        have : f + 1 + 1 - ((digits (n / 10)).length + 1) = f + 1 - (digits (n / 10)).length := by
          omega
        rw [this, List.append_assoc]
      · rw [if_neg (by omega), if_neg hl]

end JSNumber

/-! ## `toFixed` below `10^21` -/

namespace JSNumber

/-- The test `pow10Le 21` compares the value with `10^21`. -/
theorem pow10Le_21 (m : Nat) (e : Int) :
    pow10Le 21 m e = true ↔ (10 : ℚ) ^ 21 ≤ (fin false m e).toRat := by
  unfold pow10Le toRat
  simp only [decide_eq_true_eq, Bool.false_eq_true, if_false, one_mul]
  rcases Int.le_total 0 e with h | h
  · obtain ⟨k, rfl⟩ := Int.eq_ofNat_of_zero_le h
    simp only [Int.toNat_ofNat, zpow_natCast]
    have h0 : (-(k : Int)).toNat = 0 := by omega
    have h1 : (-(21 : Int)).toNat = 0 := by decide
    have h2 : (21 : Int).toNat = 21 := by decide
    rw [h0, h1, h2, pow_zero, pow_zero, mul_one, mul_one]
    exact_mod_cast Iff.rfl
  · obtain ⟨k, hk⟩ := Int.eq_ofNat_of_zero_le (Int.neg_nonneg_of_nonpos h)
    have he : e = -(k : Int) := by omega
    subst he
    have h0 : (-(-(k : Int))).toNat = k := by omega
    have h1 : (-(21 : Int)).toNat = 0 := by decide
    have h2 : (21 : Int).toNat = 21 := by decide
    have h3 : (-(k : Int)).toNat = 0 := by omega
    rw [h0, h1, h2, h3, pow_zero, pow_zero, mul_one, mul_one, zpow_neg, zpow_natCast]
    rw [← div_eq_mul_inv, le_div_iff₀ (by positivity)]
    exact_mod_cast Iff.rfl

/-- The integer `nearestScaled m e f` is the floor of `m * 2^e * 10^f + 1/2`. -/
theorem nearestScaled_spec (m : Nat) (e : Int) (f : Nat) :
    ((nearestScaled m e f : Nat) : ℚ) ≤ (fin false m e).toRat * 10 ^ f + 1 / 2 ∧
    (fin false m e).toRat * 10 ^ f + 1 / 2 < ((nearestScaled m e f : Nat) : ℚ) + 1 := by
  unfold nearestScaled toRat
  simp only [Bool.false_eq_true, if_false, one_mul]
  rcases Int.le_total 0 e with h | h
  · obtain ⟨k, rfl⟩ := Int.eq_ofNat_of_zero_le h
    have h0 : (-(k : Int)).toNat = 0 := by omega
    simp only [Int.toNat_ofNat, zpow_natCast, h0, pow_zero, mul_one]
    have hn : (2 * m * 2 ^ k * 10 ^ f + 1) / 2 = m * 2 ^ k * 10 ^ f := by
      have : 2 * m * 2 ^ k * 10 ^ f = 2 * (m * 2 ^ k * 10 ^ f) := by ring
      omega
    rw [hn]
    push_cast
    constructor <;> linarith
  · obtain ⟨k, hk⟩ := Int.eq_ofNat_of_zero_le (Int.neg_nonneg_of_nonpos h)
    have he : e = -(k : Int) := by omega
    subst he
    have h0 : (-(-(k : Int))).toNat = k := by omega
    have h3 : (-(k : Int)).toNat = 0 := by omega
    rw [h0, h3, pow_zero, mul_one, zpow_neg, zpow_natCast]
    have hD : 0 < 2 * 2 ^ k := by positivity
    have hDq : (0 : ℚ) < 2 * 2 ^ k := by positivity
    have hval : (m : ℚ) * ((2 : ℚ) ^ k)⁻¹ * 10 ^ f + 1 / 2
        = ((2 * m * 10 ^ f + 2 ^ k : Nat) : ℚ) / ((2 * 2 ^ k : Nat) : ℚ) := by
      push_cast
      field_simp
      ring
    rw [hval]
    constructor
    · rw [le_div_iff₀ (by exact_mod_cast hD)]
      exact_mod_cast Nat.div_mul_le_self _ _
    · rw [div_lt_iff₀ (by exact_mod_cast hD)]
      have := Nat.lt_succ_iff.mpr (le_refl ((2 * m * 10 ^ f + 2 ^ k) / (2 * 2 ^ k)))
      have h2 := (Nat.div_lt_iff_lt_mul hD).mp this
      exact_mod_cast h2

/-- The result of `toFixed` for a finite value below `10^21` with a positive sign bit: the
decimal digits of `n / 10^f`, a point, and the `f` low digits of `n`, where `n`
is the floor of `x * 10^f + 1/2`. -/
theorem toFixed_eq (m : Nat) (e : Int) (f : Nat) (hf : f ≠ 0)
    (h : (fin false m e).toRat < 10 ^ 21) :
    (fin false m e).toFixed f
      = String.mk (digits (nearestScaled m e f / 10 ^ f) ++ '.' :: lowDigits f (nearestScaled m e f)) := by
  have hp : pow10Le 21 m e = false := by
    rw [← Bool.not_eq_true, pow10Le_21]
    exact not_le.mpr h
  unfold toFixed
  simp only [hp, Bool.false_eq_true, false_and, if_false, List.nil_append, hf]
  rw [padded_digits f (nearestScaled m e f)]
  simp only [List.length_append, lowDigits_length, Nat.add_sub_cancel, List.take_left',
    List.drop_left']

theorem digitChar_isDigit : ∀ k, k < 10 → (Nat.digitChar k).isDigit = true := by decide

/-- The decimal digits of a natural number are digit characters. -/
theorem digits_isDigit (n : Nat) : ∀ c ∈ digits n, c.isDigit = true := by
  induction n using Nat.strong_induction_on with
  | _ n ih =>
    by_cases h : n < 10
    · rw [digits_of_lt h]
      intro c hc
      rw [List.mem_singleton] at hc
      rw [hc]
      exact digitChar_isDigit n h
    · rw [digits_of_ge (by omega)]
      intro c hc
      rw [List.mem_append, List.mem_singleton] at hc
      rcases hc with hc | hc
      · exact ih (n / 10) (Nat.div_lt_self (by omega) (by omega)) c hc
      · rw [hc]
        exact digitChar_isDigit _ (Nat.mod_lt _ (by omega))

/-- The low decimal digits of a natural number are digit characters. -/
theorem lowDigits_isDigit (f n : Nat) : ∀ c ∈ lowDigits f n, c.isDigit = true := by
  induction f generalizing n with
  | zero => intro c hc; simp [lowDigits] at hc
  | succ f ih =>
    intro c hc
    rw [lowDigits, List.mem_append, List.mem_singleton] at hc
    rcases hc with hc | hc
    · exact ih _ c hc
    · rw [hc]
      exact digitChar_isDigit _ (Nat.mod_lt _ (by omega))

/-! The sign of a result -/

theorem roundNearestEven_isNonNeg (m : Nat) (e : Int) (st : Bool) :
    IsNonNeg (roundNearestEven false m e st) := by
  unfold roundNearestEven
  simp only []
  split_ifs <;> simp [IsNonNeg]

theorem abs_isNonNeg (x : JSNumber) : IsNonNeg (Math.abs x) := by
  cases x <;> simp [Math.abs, IsNonNeg]

theorem mul_isNonNeg (a b : JSNumber) (ha : IsNonNeg a) (hb : IsNonNeg b) : IsNonNeg (a * b) := by
  cases a with
  | nan => rw [nan_mul]; trivial
  | inf s => cases b with
    | nan => trivial
    | inf t => simp only [IsNonNeg] at ha hb; subst ha hb; simp [mul_def, mul, IsNonNeg]
    | fin t n f =>
      simp only [IsNonNeg] at ha hb; subst ha hb
      simp only [mul_def, mul]
      split_ifs <;> simp [IsNonNeg]
  | fin s m e => cases b with
    | nan => trivial
    | inf t =>
      simp only [IsNonNeg] at ha hb; subst ha hb
      simp only [mul_def, mul]
      split_ifs <;> simp [IsNonNeg]
    | fin t n f =>
      simp only [IsNonNeg] at ha hb; subst ha hb
      simp only [mul_def, mul, Bool.xor_false]
      exact roundNearestEven_isNonNeg _ _ _

theorem pow2_isNonNeg (x : JSNumber) : IsNonNeg (Math.pow2 x) := by
  cases x with
  | nan => trivial
  | inf s => simp [Math.pow2, mul_def, mul, IsNonNeg]
  | fin s m e =>
    simp only [Math.pow2, mul_def, mul, Bool.xor_self]
    exact roundNearestEven_isNonNeg _ _ _

theorem add_isNonNeg (a b : JSNumber) (ha : IsNonNeg a) (hb : IsNonNeg b) : IsNonNeg (a + b) := by
  cases a with
  | nan => cases b <;> trivial
  | inf s => cases b with
    | nan => trivial
    | inf t => simp only [IsNonNeg] at ha hb; subst ha hb; simp [add_def, add, IsNonNeg]
    | fin t n f => simp only [IsNonNeg] at ha hb; subst ha hb; simp [add_def, add, IsNonNeg]
  | fin s m e => cases b with
    | nan => trivial
    | inf t => simp only [IsNonNeg] at ha hb; subst ha hb; simp [add_def, add, IsNonNeg]
    | fin t n f =>
      simp only [IsNonNeg] at ha hb; subst ha hb
      simp only [add_def, add]
      have hc : ¬ alignedSum false m e false n f < 0 := by
        unfold alignedSum signed
        simp only [Bool.false_eq_true, if_false, not_lt]
        positivity
      split_ifs
      · simp [IsNonNeg]
      · rw [decide_eq_false hc]
        exact roundNearestEven_isNonNeg _ _ _

theorem div_isNonNeg (a b : JSNumber) (ha : IsNonNeg a) (hb : IsNonNeg b) : IsNonNeg (a / b) := by
  cases a with
  | nan => rw [nan_div]; trivial
  | inf s => cases b with
    | nan => trivial
    | inf t => trivial
    | fin t n f => simp only [IsNonNeg] at ha hb; subst ha hb; simp [div_def, div, IsNonNeg]
  | fin s m e => cases b with
    | nan => trivial
    | inf t => simp only [IsNonNeg] at ha hb; subst ha hb; simp [div_def, div, IsNonNeg]
    | fin t n f =>
      simp only [IsNonNeg] at ha hb; subst ha hb
      simp only [div_def, div, Bool.xor_false]
      split_ifs
      · trivial
      · simp [IsNonNeg]
      · simp [IsNonNeg]
      · exact roundNearestEven_isNonNeg _ _ _

theorem sqrt_isNonNeg (a : JSNumber) (ha : IsNonNeg a) : IsNonNeg (Math.sqrt a) := by
  cases a with
  | nan => trivial
  | inf s => simp only [IsNonNeg] at ha; subst ha; simp [Math.sqrt, IsNonNeg]
  | fin s m e =>
    simp only [IsNonNeg] at ha; subst ha
    simp only [Math.sqrt, Bool.false_eq_true, if_false]
    split_ifs
    · simp [IsNonNeg]
    · exact roundNearestEven_isNonNeg _ _ _

theorem hundred_isNonNeg : IsNonNeg (100 : JSNumber) := by rw [hundred_eq]; rfl

end JSNumber

/-! ## Degenerate ground truth -/

open JSNumber in
/-- With `x1 = x2` or `y1 = y2` in the ground truth, `gtArea` is +0 or NaN. -/
theorem gtArea_degenerate (data : AnalysisData)
    (h : data.groundTruth.x1 = data.groundTruth.x2 ∨ data.groundTruth.y1 = data.groundTruth.y2) :
    gtArea data = nan ∨ gtArea data = fin false 0 (-1074) := by
  unfold gtArea
  rcases h with h | h
  · rw [h]
    rcases sub_self_cases data.groundTruth.x2 with h0 | h0
    · rw [h0, nan_mul]; exact Or.inl rfl
    · rw [h0]; exact abs_zero_mul_cases _ _ _
  · rw [h]
    rcases sub_self_cases data.groundTruth.y2 with h0 | h0
    · rw [h0, mul_nan]; exact Or.inl rfl
    · rw [h0]; exact abs_mul_zero_cases _ _ _

open JSNumber in
/-- With a ground-truth area of +0 or NaN, the percentage is NaN or +Infinity. -/
theorem areaDiffPercent_degenerate (data : AnalysisData)
    (h : gtArea data = nan ∨ gtArea data = fin false 0 (-1074)) :
    areaDiffPercent data = nan ∨ areaDiffPercent data = inf false := by
  unfold areaDiffPercent
  rcases h with h | h
  · rw [h, div_nan]; exact Or.inl rfl
  · rw [h]
    rcases abs_cases (gtArea data - xaiArea data) with h1 | h1 | ⟨m, e, h1⟩
    · rw [areaDiff, h1]; exact Or.inl rfl
    · rw [areaDiff, h1, hundred_eq]; right; rfl
    · rw [areaDiff, h1, hundred_eq]
      by_cases hm : m = 0
      · left; simp [div_def, div, hm, mul_def, mul]
      · right; simp [div_def, div, hm, mul_def, mul]

/-- The text substituted for the percentage is "NaN" or "Infinity" when the
ground truth is degenerate. -/
theorem percentText_degenerate (data : AnalysisData)
    (h : data.groundTruth.x1 = data.groundTruth.x2 ∨ data.groundTruth.y1 = data.groundTruth.y2) :
    (areaDiffPercent data).toFixed 1 = "NaN" ∨ (areaDiffPercent data).toFixed 1 = "Infinity" := by
  rcases areaDiffPercent_degenerate data (gtArea_degenerate data h) with h1 | h1
  · rw [h1]; exact Or.inl rfl
  · rw [h1]; exact Or.inr rfl

/-- The two places of the template that interpolate the percentage: the
"Area Difference" line (line 232) and the Conclusion (line 287). -/
theorem percent_places (data : AnalysisData) :
    ["- **Area Difference**: ", (areaDiff data).toFixed 2, " square units (",
      (areaDiffPercent data).toFixed 1, "% difference)\n"] <:+: templateParts data ∧
    ["The observed discrepancy (", (areaDiffPercent data).toFixed 1,
      "% area difference) suggests that while "] <:+: templateParts data := by
  constructor
  · exact ⟨(templateParts data).take 20, (templateParts data).drop 25, rfl⟩
  · exact ⟨(templateParts data).take 105, (templateParts data).drop 108, rfl⟩

/-- C1 (as stated, refuted): for the degenerate ground truth (0,0,0,0) the two
places of the report that interpolate the percentage read "Infinity" when the
XAI rectangle is (5,5,15,15), and "NaN" when it is (0,0,0,0) as well. -/
theorem C1_counterexample :
    (["- **Area Difference**: ", "100.00", " square units (", "Infinity", "% difference)\n"]
        <:+: templateParts (requestOf ⟨0, 0, 0, 0⟩ ⟨5, 5, 15, 15⟩) ∧
      ["The observed discrepancy (", "Infinity", "% area difference) suggests that while "]
        <:+: templateParts (requestOf ⟨0, 0, 0, 0⟩ ⟨5, 5, 15, 15⟩)) ∧
    (["- **Area Difference**: ", "0.00", " square units (", "NaN", "% difference)\n"]
        <:+: templateParts (requestOf ⟨0, 0, 0, 0⟩ ⟨0, 0, 0, 0⟩) ∧
      ["The observed discrepancy (", "NaN", "% area difference) suggests that while "]
        <:+: templateParts (requestOf ⟨0, 0, 0, 0⟩ ⟨0, 0, 0, 0⟩)) := by
  have h1 : (areaDiffPercent (requestOf ⟨0, 0, 0, 0⟩ ⟨5, 5, 15, 15⟩)).toFixed 1 = "Infinity" := by
    decide
  have h2 : (areaDiff (requestOf ⟨0, 0, 0, 0⟩ ⟨5, 5, 15, 15⟩)).toFixed 2 = "100.00" := by decide
  have h3 : (areaDiffPercent (requestOf ⟨0, 0, 0, 0⟩ ⟨0, 0, 0, 0⟩)).toFixed 1 = "NaN" := by decide
  have h4 : (areaDiff (requestOf ⟨0, 0, 0, 0⟩ ⟨0, 0, 0, 0⟩)).toFixed 2 = "0.00" := by decide
  have p1 := percent_places (requestOf ⟨0, 0, 0, 0⟩ ⟨5, 5, 15, 15⟩)
  have p2 := percent_places (requestOf ⟨0, 0, 0, 0⟩ ⟨0, 0, 0, 0⟩)
  rw [h1, h2] at p1
  rw [h3, h4] at p2
  exact ⟨p1, p2⟩

/-- C1 (amended): for every request whose ground-truth rectangle has `x1 = x2`
or `y1 = y2`, `simulateLLMAnalysis` returns a report (the concatenation of the
template parts) in which the percentage is not flagged as undefined: the text
interpolated at both places, the "Area Difference" line and the Conclusion, is
"NaN" or "Infinity". -/
theorem C1_degenerate_percent_nan_or_infinity (data : AnalysisData)
    (h : data.groundTruth.x1 = data.groundTruth.x2 ∨ data.groundTruth.y1 = data.groundTruth.y2) :
    ∃ p : String, (p = "NaN" ∨ p = "Infinity") ∧
      simulateLLMAnalysis data = String.join (templateParts data) ∧
      ["- **Area Difference**: ", (areaDiff data).toFixed 2, " square units (", p,
        "% difference)\n"] <:+: templateParts data ∧
      ["The observed discrepancy (", p, "% area difference) suggests that while "]
        <:+: templateParts data :=
  ⟨(areaDiffPercent data).toFixed 1, percentText_degenerate data h, rfl, percent_places data⟩

/-- C1 (amended), at ground truth (0,0,0,0) and XAI rectangle (5,5,15,15). -/
theorem C1_degenerate_percent_witness :
    ((requestOf ⟨0, 0, 0, 0⟩ ⟨5, 5, 15, 15⟩).groundTruth.x1
        = (requestOf ⟨0, 0, 0, 0⟩ ⟨5, 5, 15, 15⟩).groundTruth.x2 ∨
      (requestOf ⟨0, 0, 0, 0⟩ ⟨5, 5, 15, 15⟩).groundTruth.y1
        = (requestOf ⟨0, 0, 0, 0⟩ ⟨5, 5, 15, 15⟩).groundTruth.y2) ∧
    ∃ p : String, (p = "NaN" ∨ p = "Infinity") ∧
      simulateLLMAnalysis (requestOf ⟨0, 0, 0, 0⟩ ⟨5, 5, 15, 15⟩)
        = String.join (templateParts (requestOf ⟨0, 0, 0, 0⟩ ⟨5, 5, 15, 15⟩)) ∧
      ["- **Area Difference**: ", (areaDiff (requestOf ⟨0, 0, 0, 0⟩ ⟨5, 5, 15, 15⟩)).toFixed 2,
        " square units (", p, "% difference)\n"]
        <:+: templateParts (requestOf ⟨0, 0, 0, 0⟩ ⟨5, 5, 15, 15⟩) ∧
      ["The observed discrepancy (", p, "% area difference) suggests that while "]
        <:+: templateParts (requestOf ⟨0, 0, 0, 0⟩ ⟨5, 5, 15, 15⟩) :=
  ⟨Or.inl rfl, C1_degenerate_percent_nan_or_infinity _ (Or.inl rfl)⟩

/-! ## Exact areas on integer corners -/

/-- On integer corners of magnitude at most `2^25` the area is computed without
rounding: it is the integer `|(x2 - x1) * (y2 - y1)|`. -/
theorem area_exact (r : BoundingBox) (x1 y1 x2 y2 : Int) (h : r.HasIntegerCorners x1 y1 x2 y2) :
    r.area.Represents ((((x2 - x1) * (y2 - y1)).natAbs : Nat) : ℚ) := by
  obtain ⟨⟨h1, h2, h3, h4⟩, b1, b2, b3, b4⟩ := h
  have hw : r.width.Represents (((x2 - x1 : Int) : ℚ)) := by
    have := JSNumber.sub_represents r.x2 r.x1 x2 x1 h3 h1
      (by have := JSNumber.int_representable (x2 - x1) (by omega); push_cast at this; exact this)
    push_cast
    exact this
  have hh : r.height.Represents (((y2 - y1 : Int) : ℚ)) := by
    have := JSNumber.sub_represents r.y2 r.y1 y2 y1 h4 h2
      (by have := JSNumber.int_representable (y2 - y1) (by omega); push_cast at this; exact this)
    push_cast
    exact this
  have hb : ((x2 - x1) * (y2 - y1)).natAbs < 2 ^ 53 := by
    rw [Int.natAbs_mul]
    have a1 : (x2 - x1).natAbs ≤ 2 ^ 26 := by omega
    have a2 : (y2 - y1).natAbs ≤ 2 ^ 26 := by omega
    calc (x2 - x1).natAbs * (y2 - y1).natAbs ≤ 2 ^ 26 * 2 ^ 26 := Nat.mul_le_mul a1 a2
      _ < 2 ^ 53 := by norm_num
  have hp := JSNumber.mul_represents r.width r.height _ _ hw hh
    (by have := JSNumber.int_representable ((x2 - x1) * (y2 - y1)) hb
        push_cast at this ⊢; exact this)
  have ha := JSNumber.abs_represents _ _ hp
  have hv : |(((x2 - x1 : Int) : ℚ)) * (((y2 - y1 : Int) : ℚ))|
      = ((((x2 - x1) * (y2 - y1)).natAbs : Nat) : ℚ) := by
    rw [Nat.cast_natAbs, Int.cast_abs, Int.cast_mul]
  rw [hv] at ha
  exact ha

/-- On integer corners of magnitude at most `2^25`, `gtArea`, `xaiArea` and
`areaDiff` are the exact values of the formulas of the specification. -/
theorem areas_exact (data : AnalysisData) (a1 b1 a2 b2 c1 d1 c2 d2 : Int)
    (hgt : data.groundTruth.HasIntegerCorners a1 b1 a2 b2)
    (hxai : data.xaiGenerated.HasIntegerCorners c1 d1 c2 d2) :
    (gtArea data).Represents |((a2 : ℚ) - a1) * ((b2 : ℚ) - b1)| ∧
    (xaiArea data).Represents |((c2 : ℚ) - c1) * ((d2 : ℚ) - d1)| ∧
    (areaDiff data).Represents
      (abs (|((a2 : ℚ) - a1) * ((b2 : ℚ) - b1)| - |((c2 : ℚ) - c1) * ((d2 : ℚ) - d1)|)) := by
  have hA := area_exact _ _ _ _ _ hgt
  have hB := area_exact _ _ _ _ _ hxai
  have cA : ((((a2 - a1) * (b2 - b1)).natAbs : Nat) : ℚ) = |((a2 : ℚ) - a1) * ((b2 : ℚ) - b1)| := by
    rw [Nat.cast_natAbs, Int.cast_abs]; push_cast; rfl
  have cB : ((((c2 - c1) * (d2 - d1)).natAbs : Nat) : ℚ) = |((c2 : ℚ) - c1) * ((d2 : ℚ) - d1)| := by
    rw [Nat.cast_natAbs, Int.cast_abs]; push_cast; rfl
  have bA : ((a2 - a1) * (b2 - b1)).natAbs ≤ 2 ^ 52 := by
    obtain ⟨-, b1', b2', b3', b4'⟩ := hgt
    rw [Int.natAbs_mul]
    have a1' : (a2 - a1).natAbs ≤ 2 ^ 26 := by omega
    have a2' : (b2 - b1).natAbs ≤ 2 ^ 26 := by omega
    calc (a2 - a1).natAbs * (b2 - b1).natAbs ≤ 2 ^ 26 * 2 ^ 26 := Nat.mul_le_mul a1' a2'
      _ = 2 ^ 52 := by norm_num
  have bB : ((c2 - c1) * (d2 - d1)).natAbs ≤ 2 ^ 52 := by
    obtain ⟨-, b1', b2', b3', b4'⟩ := hxai
    rw [Int.natAbs_mul]
    have a1' : (c2 - c1).natAbs ≤ 2 ^ 26 := by omega
    have a2' : (d2 - d1).natAbs ≤ 2 ^ 26 := by omega
    calc (c2 - c1).natAbs * (d2 - d1).natAbs ≤ 2 ^ 26 * 2 ^ 26 := Nat.mul_le_mul a1' a2'
      _ = 2 ^ 52 := by norm_num
  have hrep : ∃ r : JSNumber, r.Represents
      (|((a2 : ℚ) - a1) * ((b2 : ℚ) - b1)| - |((c2 : ℚ) - c1) * ((d2 : ℚ) - d1)|) := by
    have := JSNumber.int_representable
      ((((a2 - a1) * (b2 - b1)).natAbs : Int) - (((c2 - c1) * (d2 - d1)).natAbs : Int))
      (by omega)
    push_cast at this
    exact this
  rw [cA] at hA
  rw [cB] at hB
  exact ⟨hA, hB, JSNumber.abs_represents _ _ (JSNumber.sub_represents _ _ _ _ hA hB hrep)⟩

/-! ## The metrics -/

/-- The Number computed for `centerDistance` in the example of the
specification, and its distance from the real square root of 50. -/
theorem sqrt_fifty :
    Math.sqrt 50 = JSNumber.fin false 7961314590657216 (-50) ∧
    |(((JSNumber.fin false 7961314590657216 (-50)).toRat : ℚ) : ℝ) - Real.sqrt 50| ≤ 1 / 2 ^ 51 := by
  refine ⟨by decide, ?_⟩
  have hv : (((JSNumber.fin false 7961314590657216 (-50)).toRat : ℚ) : ℝ)
      = 7961314590657216 / 2 ^ 50 := by
    simp only [JSNumber.toRat]
    norm_num
  rw [hv, abs_le]
  constructor
  · have : Real.sqrt 50 ≤ 7961314590657216 / 2 ^ 50 + 1 / 2 ^ 51 := by
      rw [Real.sqrt_le_left (by positivity)]
      norm_num
    linarith
  · have : (7961314590657216 / 2 ^ 50 - 1 / 2 ^ 51 : ℝ) ≤ Real.sqrt 50 := by
      rw [Real.le_sqrt' (by norm_num)]
      norm_num
    linarith

/-- C2: the metrics of `simulateLLMAnalysis` are the quantities of the
specification, evaluated in Number arithmetic: `gtArea` and `xaiArea` are the
areas `|width * height|` of the two rectangles, `areaDiff = |gtArea - xaiArea|`,
`areaDiffPercent = areaDiff / gtArea * 100`, and `centerDistance` is the
Euclidean distance of the two centers. On integer corners of magnitude at most
`2^25` the two areas and `areaDiff` are the exact values of these formulas.
For groundTruth = (0,0,10,10) and xaiGenerated = (5,5,15,15) the metrics are
100, 100, 0, 0 and `Math.sqrt(50)`, the Number within 2^-51 of the real square
root of 50, printed as "7.07". -/
theorem C2_metrics (data : AnalysisData) :
    (gtArea data = data.groundTruth.area ∧
      xaiArea data = data.xaiGenerated.area ∧
      areaDiff data = Math.abs (data.groundTruth.area - data.xaiGenerated.area) ∧
      areaDiffPercent data
        = Math.abs (data.groundTruth.area - data.xaiGenerated.area) / data.groundTruth.area * 100 ∧
      centerDistance data
        = euclideanDistance data.groundTruth.center data.xaiGenerated.center) ∧
    (∀ a1 b1 a2 b2 c1 d1 c2 d2 : Int,
      data.groundTruth.HasIntegerCorners a1 b1 a2 b2 →
      data.xaiGenerated.HasIntegerCorners c1 d1 c2 d2 →
      (gtArea data).Represents |((a2 : ℚ) - a1) * ((b2 : ℚ) - b1)| ∧
      (xaiArea data).Represents |((c2 : ℚ) - c1) * ((d2 : ℚ) - d1)| ∧
      (areaDiff data).Represents
        (abs (|((a2 : ℚ) - a1) * ((b2 : ℚ) - b1)| - |((c2 : ℚ) - c1) * ((d2 : ℚ) - d1)|))) ∧
    (gtArea (requestOf ⟨0, 0, 10, 10⟩ ⟨5, 5, 15, 15⟩) = 100 ∧
      xaiArea (requestOf ⟨0, 0, 10, 10⟩ ⟨5, 5, 15, 15⟩) = 100 ∧
      areaDiff (requestOf ⟨0, 0, 10, 10⟩ ⟨5, 5, 15, 15⟩) = 0 ∧
      areaDiffPercent (requestOf ⟨0, 0, 10, 10⟩ ⟨5, 5, 15, 15⟩) = 0 ∧
      centerDistance (requestOf ⟨0, 0, 10, 10⟩ ⟨5, 5, 15, 15⟩) = Math.sqrt 50 ∧
      |(((centerDistance (requestOf ⟨0, 0, 10, 10⟩ ⟨5, 5, 15, 15⟩)).toRat : ℚ) : ℝ)
        - Real.sqrt 50| ≤ 1 / 2 ^ 51 ∧
      (centerDistance (requestOf ⟨0, 0, 10, 10⟩ ⟨5, 5, 15, 15⟩)).toFixed 2 = "7.07") := by
  refine ⟨⟨rfl, rfl, rfl, rfl, rfl⟩, fun a1 b1 a2 b2 c1 d1 c2 d2 hgt hxai =>
    areas_exact data a1 b1 a2 b2 c1 d1 c2 d2 hgt hxai,
    by decide, by decide, by decide, by decide, by decide, ?_, by decide⟩
  have h : centerDistance (requestOf ⟨0, 0, 10, 10⟩ ⟨5, 5, 15, 15⟩)
      = JSNumber.fin false 7961314590657216 (-50) := by decide
  rw [h]
  exact sqrt_fifty.2

/-- C2, at groundTruth = (0,0,10,10) and xaiGenerated = (5,5,15,15): the corners
are integers, and the areas 100 and 100 and their difference 0 are exact. -/
theorem C2_metrics_witness :
    (requestOf ⟨0, 0, 10, 10⟩ ⟨5, 5, 15, 15⟩).groundTruth.HasIntegerCorners 0 0 10 10 ∧
    (requestOf ⟨0, 0, 10, 10⟩ ⟨5, 5, 15, 15⟩).xaiGenerated.HasIntegerCorners 5 5 15 15 ∧
    (gtArea (requestOf ⟨0, 0, 10, 10⟩ ⟨5, 5, 15, 15⟩)).Represents 100 ∧
    (xaiArea (requestOf ⟨0, 0, 10, 10⟩ ⟨5, 5, 15, 15⟩)).Represents 100 ∧
    (areaDiff (requestOf ⟨0, 0, 10, 10⟩ ⟨5, 5, 15, 15⟩)).Represents 0 := by
  have h0 : (0 : JSNumber).Represents ((0 : Int) : ℚ) := by
    simpa using JSNumber.ofNat_represents 0 (by norm_num)
  have h5 : (5 : JSNumber).Represents ((5 : Int) : ℚ) := by
    simpa using JSNumber.ofNat_represents 5 (by norm_num)
  have h10 : (10 : JSNumber).Represents ((10 : Int) : ℚ) := by
    simpa using JSNumber.ofNat_represents 10 (by norm_num)
  have h15 : (15 : JSNumber).Represents ((15 : Int) : ℚ) := by
    simpa using JSNumber.ofNat_represents 15 (by norm_num)
  have hgt : (requestOf ⟨0, 0, 10, 10⟩ ⟨5, 5, 15, 15⟩).groundTruth.HasIntegerCorners 0 0 10 10 :=
    ⟨⟨h0, h0, h10, h10⟩, by decide⟩
  have hxai :
      (requestOf ⟨0, 0, 10, 10⟩ ⟨5, 5, 15, 15⟩).xaiGenerated.HasIntegerCorners 5 5 15 15 :=
    ⟨⟨h5, h5, h15, h15⟩, by decide⟩
  have h := (C2_metrics (requestOf ⟨0, 0, 10, 10⟩ ⟨5, 5, 15, 15⟩)).2.1
    0 0 10 10 5 5 15 15 hgt hxai
  norm_num at h
  exact ⟨hgt, hxai, h⟩

/-! ## The technique lookup -/

/-- The lookup among the own properties succeeds exactly at the five keys. -/
theorem alternatives_lookup (s : String) :
    (s = "gradcam" ∧ alternatives.lookup s = some "Grad-CAM++, Eigen-CAM, or Guided Grad-CAM") ∨
    (s = "gradcam++" ∧ alternatives.lookup s = some "Eigen-CAM, LIME, or Integrated Gradients") ∨
    (s = "lime" ∧ alternatives.lookup s = some "Grad-CAM, SHAP, or Kernel SHAP") ∨
    (s = "eigencam" ∧
      alternatives.lookup s = some "Grad-CAM, Grad-CAM++, or Guided Backpropagation") ∨
    (s = "guidedgradcam" ∧
      alternatives.lookup s = some "Eigen-CAM, LIME, or Integrated Gradients") ∨
    ((s ≠ "gradcam" ∧ s ≠ "gradcam++" ∧ s ≠ "lime" ∧ s ≠ "eigencam" ∧ s ≠ "guidedgradcam") ∧
      alternatives.lookup s = none) := by
  by_cases h1 : s = "gradcam"
  · subst h1; exact Or.inl ⟨rfl, by decide⟩
  by_cases h2 : s = "gradcam++"
  · subst h2; exact Or.inr (Or.inl ⟨rfl, by decide⟩)
  by_cases h3 : s = "lime"
  · subst h3; exact Or.inr (Or.inr (Or.inl ⟨rfl, by decide⟩))
  by_cases h4 : s = "eigencam"
  · subst h4; exact Or.inr (Or.inr (Or.inr (Or.inl ⟨rfl, by decide⟩)))
  by_cases h5 : s = "guidedgradcam"
  · subst h5; exact Or.inr (Or.inr (Or.inr (Or.inr (Or.inl ⟨rfl, by decide⟩))))
  refine Or.inr (Or.inr (Or.inr (Or.inr (Or.inr ⟨⟨h1, h2, h3, h4, h5⟩, ?_⟩))))
  simp only [alternatives, List.lookup, beq_false_of_ne h1, beq_false_of_ne h2,
    beq_false_of_ne h3, beq_false_of_ne h4, beq_false_of_ne h5]

/-- Without an own property, the result is the generic fallback unless the
key names a member of `Object.prototype`. -/
theorem getAlternativeTechniques_of_lookup_none (s : String)
    (h : alternatives.lookup s = none) :
    getAlternativeTechniques s = JSValue.string genericFallback ∨
    (∃ name, getAlternativeTechniques s = JSValue.builtinFunction name) ∨
    getAlternativeTechniques s = JSValue.objectPrototype := by
  unfold getAlternativeTechniques alternativesGet
  rw [h]
  simp only []
  by_cases hf : s ∈ objectPrototypeFunctions
  · rw [if_pos hf]
    exact Or.inr (Or.inl ⟨_, rfl⟩)
  · rw [if_neg hf]
    by_cases hp : s = "__proto__"
    · rw [if_pos hp]
      exact Or.inr (Or.inr rfl)
    · rw [if_neg hp]
      exact Or.inl rfl

/-- C3 (the code at the failing input): the technique string 'constructor' is
not one of the five keys, yet `getAlternativeTechniques` returns the function
`Object`, inherited from `Object.prototype`, instead of the generic fallback;
so do the other inherited names, and `__proto__` returns `Object.prototype`.
The string 'unknown-technique' does get the fallback. -/
theorem C3_inherited_property_not_fallback :
    alternatives.lookup "constructor" = none ∧
    getAlternativeTechniques "constructor" = JSValue.builtinFunction "Object" ∧
    getAlternativeTechniques "constructor" ≠ JSValue.string genericFallback ∧
    getAlternativeTechniques "toString" = JSValue.builtinFunction "toString" ∧
    getAlternativeTechniques "__proto__" = JSValue.objectPrototype ∧
    getAlternativeTechniques "unknown-technique" = JSValue.string genericFallback := by
  decide

/-- C4 (as stated, refuted): 'GradCAM' and 'Grad-CAM' both have the normalized
form 'gradcam', but the lookup gives them the generic fallback and not the
suggestion it gives for 'gradcam'. -/
theorem C4_counterexample :
    normalizeTechnique "GradCAM" = "gradcam" ∧
    normalizeTechnique "Grad-CAM" = "gradcam" ∧
    getAlternativeTechniques "GradCAM" ≠ getAlternativeTechniques (normalizeTechnique "GradCAM") ∧
    getAlternativeTechniques "Grad-CAM"
      ≠ getAlternativeTechniques (normalizeTechnique "Grad-CAM") := by
  decide

/-- C4 (amended): the lookup is keyed by the technique string exactly as it is
passed, without normalization: `getAlternativeTechniques s` is an entry `v` of
the mapping exactly when `(s, v)` is literally one of its five key-value pairs.
So 'gradcam' yields 'Grad-CAM++, Eigen-CAM, or Guided Grad-CAM', while 'GradCAM'
and 'Grad-CAM' yield the generic fallback. -/
theorem C4_lookup_by_exact_key (s v : String) :
    ((s, v) ∈ alternatives ↔
      (getAlternativeTechniques s = JSValue.string v ∧ v ≠ genericFallback)) ∧
    getAlternativeTechniques "gradcam"
      = JSValue.string "Grad-CAM++, Eigen-CAM, or Guided Grad-CAM" ∧
    getAlternativeTechniques "GradCAM" = JSValue.string genericFallback ∧
    getAlternativeTechniques "Grad-CAM" = JSValue.string genericFallback := by
  refine ⟨?_, by decide, by decide, by decide⟩
  constructor
  · intro h
    simp only [alternatives, List.mem_cons, Prod.mk.injEq, List.mem_singleton, List.not_mem_nil,
      or_false] at h
    rcases h with ⟨rfl, rfl⟩ | ⟨rfl, rfl⟩ | ⟨rfl, rfl⟩ | ⟨rfl, rfl⟩ | ⟨rfl, rfl⟩ <;> decide
  · rintro ⟨h, hv⟩
    rcases alternatives_lookup s with ⟨rfl, -⟩ | ⟨rfl, -⟩ | ⟨rfl, -⟩ | ⟨rfl, -⟩ | ⟨rfl, -⟩ | ⟨-, hn⟩
    · have : getAlternativeTechniques "gradcam"
          = JSValue.string "Grad-CAM++, Eigen-CAM, or Guided Grad-CAM" := by decide
      rw [this] at h
      cases h
      decide
    · have : getAlternativeTechniques "gradcam++"
          = JSValue.string "Eigen-CAM, LIME, or Integrated Gradients" := by decide
      rw [this] at h
      cases h
      decide
    · have : getAlternativeTechniques "lime" = JSValue.string "Grad-CAM, SHAP, or Kernel SHAP" := by
        decide
      rw [this] at h
      cases h
      decide
    · have : getAlternativeTechniques "eigencam"
          = JSValue.string "Grad-CAM, Grad-CAM++, or Guided Backpropagation" := by decide
      rw [this] at h
      cases h
      decide
    · have : getAlternativeTechniques "guidedgradcam"
          = JSValue.string "Eigen-CAM, LIME, or Integrated Gradients" := by decide
      rw [this] at h
      cases h
      decide
    · rcases getAlternativeTechniques_of_lookup_none s hn with h1 | ⟨name, h1⟩ | h1
      · rw [h1] at h
        cases h
        exact absurd rfl hv
      · rw [h1] at h
        cases h
      · rw [h1] at h
        cases h

/-- C9: for each of the five keys `getAlternativeTechniques` returns that key's
entry of the mapping, which is not the generic fallback. -/
theorem C9_known_keys :
    getAlternativeTechniques "gradcam"
      = JSValue.string "Grad-CAM++, Eigen-CAM, or Guided Grad-CAM" ∧
    "Grad-CAM++".toList <:+: "Grad-CAM++, Eigen-CAM, or Guided Grad-CAM".toList ∧
    getAlternativeTechniques "gradcam++"
      = JSValue.string "Eigen-CAM, LIME, or Integrated Gradients" ∧
    getAlternativeTechniques "lime" = JSValue.string "Grad-CAM, SHAP, or Kernel SHAP" ∧
    getAlternativeTechniques "eigencam"
      = JSValue.string "Grad-CAM, Grad-CAM++, or Guided Backpropagation" ∧
    getAlternativeTechniques "guidedgradcam"
      = JSValue.string "Eigen-CAM, LIME, or Integrated Gradients" ∧
    (∀ key ∈ ["gradcam", "gradcam++", "lime", "eigencam", "guidedgradcam"],
      getAlternativeTechniques key ≠ JSValue.string genericFallback) := by
  decide

/-! ## Determinism -/

/-- C5: two requests that agree on the two rectangles and on the metadata
triple get the same report, whatever their prompts and image payloads are; in
particular a request always gets the same report. -/
theorem C5_report_depends_on_rectangles_and_metadata (d1 d2 : AnalysisData)
    (hgt : d1.groundTruth = d2.groundTruth) (hxai : d1.xaiGenerated = d2.xaiGenerated)
    (hmeta : d1.metadata = d2.metadata) :
    simulateLLMAnalysis d1 = simulateLLMAnalysis d2 := by
  obtain ⟨p1, g1, x1, m1, i1⟩ := d1
  obtain ⟨p2, g2, x2, m2, i2⟩ := d2
  simp only at hgt hxai hmeta
  subst hgt hxai hmeta
  rfl

/-- C5, at two requests that differ in the prompt and in both images. -/
theorem C5_report_witness :
    (AnalysisData.mk "first prompt" ⟨0, 0, 10, 10⟩ ⟨5, 5, 15, 15⟩
        ⟨"lime", "unet", "coco"⟩ ⟨some "data:image/png;base64,AAAA", none⟩).groundTruth
      = (AnalysisData.mk "second prompt" ⟨0, 0, 10, 10⟩ ⟨5, 5, 15, 15⟩
        ⟨"lime", "unet", "coco"⟩ ⟨none, some "data:image/jpeg;base64,BBBB"⟩).groundTruth ∧
    simulateLLMAnalysis (AnalysisData.mk "first prompt" ⟨0, 0, 10, 10⟩ ⟨5, 5, 15, 15⟩
        ⟨"lime", "unet", "coco"⟩ ⟨some "data:image/png;base64,AAAA", none⟩)
      = simulateLLMAnalysis (AnalysisData.mk "second prompt" ⟨0, 0, 10, 10⟩ ⟨5, 5, 15, 15⟩
        ⟨"lime", "unet", "coco"⟩ ⟨none, some "data:image/jpeg;base64,BBBB"⟩) :=
  ⟨rfl, C5_report_depends_on_rectangles_and_metadata _ _ rfl rfl rfl⟩

/-! ## Symmetries of the area -/

/-- The area of a rectangle does not change when `x1` and `x2` are exchanged. -/
theorem area_swapX (r : BoundingBox) : r.swapX.area = r.area :=
  JSNumber.abs_mul_congr_left _ _ _ (JSNumber.abs_sub_comm _ _)

/-- The area of a rectangle does not change when `y1` and `y2` are exchanged. -/
theorem area_swapY (r : BoundingBox) : r.swapY.area = r.area :=
  JSNumber.abs_mul_congr_right _ _ _ (JSNumber.abs_sub_comm _ _)

/-- C6: the area `|(x2-x1)*(y2-y1)|` that `simulateLLMAnalysis` computes for the
ground truth (`gtArea`) and for the XAI rectangle (`xaiArea`) is unchanged
when `x1` and `x2` are exchanged, when `y1` and `y2` are exchanged, or both. -/
theorem C6_area_invariant_under_corner_swaps (p : String) (r other : BoundingBox)
    (md : Metadata) (im : Images) :
    (gtArea ⟨p, r.swapX, other, md, im⟩ = gtArea ⟨p, r, other, md, im⟩ ∧
      gtArea ⟨p, r.swapY, other, md, im⟩ = gtArea ⟨p, r, other, md, im⟩ ∧
      gtArea ⟨p, r.swapX.swapY, other, md, im⟩ = gtArea ⟨p, r, other, md, im⟩) ∧
    (xaiArea ⟨p, other, r.swapX, md, im⟩ = xaiArea ⟨p, other, r, md, im⟩ ∧
      xaiArea ⟨p, other, r.swapY, md, im⟩ = xaiArea ⟨p, other, r, md, im⟩ ∧
      xaiArea ⟨p, other, r.swapX.swapY, md, im⟩ = xaiArea ⟨p, other, r, md, im⟩) :=
  ⟨⟨area_swapX r, area_swapY r, (area_swapY r.swapX).trans (area_swapX r)⟩,
    ⟨area_swapX r, area_swapY r, (area_swapY r.swapX).trans (area_swapX r)⟩⟩

/-! ## Equal rectangles -/

/-- C7 (as stated, refuted): with both rectangles equal to
(1e308, 0, 1.7e308, 10), whose corners are finite, the area and the sum
`x1 + x2` overflow to Infinity, and `areaDiff` and `centerDistance` are NaN. -/
theorem C7_counterexample :
    ((JSNumber.ofNat (10 ^ 308)).Canonical ∧ (JSNumber.ofNat (10 ^ 308)).isFinite = true ∧
      (JSNumber.ofNat (10 ^ 308)).toString = "1e+308") ∧
    ((JSNumber.ofNat (17 * 10 ^ 307)).Canonical ∧
      (JSNumber.ofNat (17 * 10 ^ 307)).isFinite = true ∧
      (JSNumber.ofNat (17 * 10 ^ 307)).toString = "1.7e+308") ∧
    gtArea (requestOf ⟨.ofNat (10 ^ 308), 0, .ofNat (17 * 10 ^ 307), 10⟩
      ⟨.ofNat (10 ^ 308), 0, .ofNat (17 * 10 ^ 307), 10⟩) = JSNumber.inf false ∧
    areaDiff (requestOf ⟨.ofNat (10 ^ 308), 0, .ofNat (17 * 10 ^ 307), 10⟩
      ⟨.ofNat (10 ^ 308), 0, .ofNat (17 * 10 ^ 307), 10⟩) = JSNumber.nan ∧
    centerDistance (requestOf ⟨.ofNat (10 ^ 308), 0, .ofNat (17 * 10 ^ 307), 10⟩
      ⟨.ofNat (10 ^ 308), 0, .ofNat (17 * 10 ^ 307), 10⟩) = JSNumber.nan := by
  decide

/-- C7 (amended): for every request in which the two rectangles have equal
corners and the ground-truth area and center coordinates are finite (no
overflow, no NaN or infinite coordinate), `centerDistance = 0` and
`areaDiff = 0`. -/
theorem C7_equal_rectangles (data : AnalysisData)
    (heq : data.groundTruth = data.xaiGenerated)
    (harea : (gtArea data).isFinite = true)
    (hcx : (gtCenterX data).isFinite = true) (hcy : (gtCenterY data).isFinite = true) :
    centerDistance data = 0 ∧ areaDiff data = 0 := by
  have hx : xaiCenterX data = gtCenterX data := by unfold xaiCenterX gtCenterX; rw [heq]
  have hy : xaiCenterY data = gtCenterY data := by unfold xaiCenterY gtCenterY; rw [heq]
  have ha : xaiArea data = gtArea data := by unfold xaiArea gtArea; rw [heq]
  constructor
  · unfold centerDistance
    rw [hx, hy, JSNumber.sub_self_of_isFinite _ hcx, JSNumber.sub_self_of_isFinite _ hcy]
    decide
  · unfold areaDiff
    rw [ha, JSNumber.sub_self_of_isFinite _ harea]
    decide

/-- C7 (amended), at two rectangles equal to (0,0,10,10). -/
theorem C7_equal_rectangles_witness :
    (requestOf ⟨0, 0, 10, 10⟩ ⟨0, 0, 10, 10⟩).groundTruth
      = (requestOf ⟨0, 0, 10, 10⟩ ⟨0, 0, 10, 10⟩).xaiGenerated ∧
    (gtArea (requestOf ⟨0, 0, 10, 10⟩ ⟨0, 0, 10, 10⟩)).isFinite = true ∧
    centerDistance (requestOf ⟨0, 0, 10, 10⟩ ⟨0, 0, 10, 10⟩) = 0 ∧
    areaDiff (requestOf ⟨0, 0, 10, 10⟩ ⟨0, 0, 10, 10⟩) = 0 :=
  ⟨rfl, by decide,
    C7_equal_rectangles (requestOf ⟨0, 0, 10, 10⟩ ⟨0, 0, 10, 10⟩) rfl (by decide) (by decide)
      (by decide)⟩

/-! ## Rounding error of division and of the multiplication by `100` -/

namespace JSNumber

theorem le_bitLength (m j : Nat) (h : 2 ^ j ≤ m) : j + 1 ≤ bitLength m := by
  have hm : m ≠ 0 := by
    have : 0 < 2 ^ j := by positivity
    omega
  obtain ⟨_, _, h3⟩ := bitLength_spec m hm
  have : j < bitLength m :=
    (Nat.pow_lt_pow_iff_right (by norm_num : 1 < 2)).mp (lt_of_le_of_lt h h3)
  omega

theorem bitLength_le (m j : Nat) (hm : m ≠ 0) (h : m < 2 ^ j) : bitLength m ≤ j := by
  obtain ⟨h1, h2, _⟩ := bitLength_spec m hm
  have : bitLength m - 1 < j :=
    (Nat.pow_lt_pow_iff_right (by norm_num : 1 < 2)).mp (lt_of_le_of_lt h2 h)
  omega

/-- Rounding a magnitude of at least 54 bits into the normal range is faithful:
the result `q * 2^e2` and every exact value in `[m * 2^e, (m + 1) * 2^e]` lie in
one interval `[k * w, (k + 1) * w]` with `2^52 ≤ k`. -/
theorem roundNearestEven_faithful (s : Bool) (m : Nat) (e : Int) (st : Bool)
    (hb : 54 ≤ bitLength m) (hlo : -1074 ≤ e + (bitLength m : Int) - 53)
    (hhi : e + (bitLength m : Int) - 53 < 971) :
    ∃ q : Nat, ∃ e2 : Int, ∃ k : Nat,
      roundNearestEven s m e st = fin s q e2 ∧ 2 ^ 52 ≤ q ∧ q < 2 ^ 53 ∧
      e + (bitLength m : Int) - 53 ≤ e2 ∧ e2 ≤ e + (bitLength m : Int) - 52 ∧
      2 ^ 52 ≤ k ∧
      (k : ℚ) * 2 ^ (e + (bitLength m : Int) - 53) ≤ (q : ℚ) * 2 ^ e2 ∧
      (q : ℚ) * 2 ^ e2 ≤ ((k : ℚ) + 1) * 2 ^ (e + (bitLength m : Int) - 53) ∧
      (k : ℚ) * 2 ^ (e + (bitLength m : Int) - 53) ≤ (m : ℚ) * 2 ^ e ∧
      ((m : ℚ) + 1) * 2 ^ e ≤ ((k : ℚ) + 1) * 2 ^ (e + (bitLength m : Int) - 53) := by
  have hm : m ≠ 0 := by
    rintro rfl
    have : bitLength 0 = 0 := rfl
    omega
  obtain ⟨hb1, hbl, hbu⟩ := bitLength_spec m hm
  unfold roundNearestEven
  rw [if_neg hm]
  simp only []
  generalize bitLength m = b at hb hlo hhi hb1 hbl hbu ⊢
  obtain ⟨sh, rfl⟩ : ∃ sh, b = sh + 53 := ⟨b - 53, by omega⟩
  have hsh : 1 ≤ sh := by omega
  have h2 : (2 : ℚ) ≠ 0 := by norm_num
  have hw : (2 : ℚ) ^ (e + ((sh + 53 : Nat) : Int) - 53) = 2 ^ sh * 2 ^ e := by
    have : e + ((sh + 53 : Nat) : Int) - 53 = (sh : Int) + e := by push_cast; ring
    rw [this, zpow_add₀ h2, zpow_natCast]
  have he0 : (0 : ℚ) < 2 ^ e := by positivity
  have hk : 2 ^ 52 ≤ m / 2 ^ sh := by
    rw [Nat.le_div_iff_mul_le (by positivity), ← pow_add]
    have : 52 + sh = sh + 53 - 1 := by omega
    rw [this]; exact hbl
  have hq : m / 2 ^ sh < 2 ^ 53 := by
    rw [Nat.div_lt_iff_lt_mul (by positivity)]
    calc m < 2 ^ (sh + 53) := hbu
      _ = 2 ^ 53 * 2 ^ sh := by rw [← pow_add, add_comm]
  have hdown : (m / 2 ^ sh) * 2 ^ sh ≤ m := Nat.div_mul_le_self m (2 ^ sh)
  have hupper : m + 1 ≤ (m / 2 ^ sh + 1) * 2 ^ sh := by
    have := @Nat.lt_div_mul_add m (2 ^ sh) (by positivity)
    rw [add_mul, one_mul]
    omega
  have hdownQ : ((m / 2 ^ sh : Nat) : ℚ) * (2 ^ sh * 2 ^ e) ≤ (m : ℚ) * 2 ^ e := by
    rw [← mul_assoc]
    apply mul_le_mul_of_nonneg_right _ he0.le
    exact_mod_cast hdown
  have hupperQ : ((m : ℚ) + 1) * 2 ^ e ≤ (((m / 2 ^ sh : Nat) : ℚ) + 1) * (2 ^ sh * 2 ^ e) := by
    rw [← mul_assoc]
    apply mul_le_mul_of_nonneg_right _ he0.le
    exact_mod_cast hupper
  have he1 : max (e + ((sh + 53 : Nat) : Int) - 53) (-1074) = e + sh := by
    rw [max_eq_left hlo]; push_cast; ring
  rw [he1]
  have hexact : ¬ (e + (sh : Int) ≤ e) := by omega
  rw [if_neg hexact]
  have hshn : (e + (sh : Int) - e).toNat = sh := by
    have : e + (sh : Int) - e = (sh : Int) := by ring
    rw [this, Int.toNat_ofNat]
  rw [hshn]
  generalize (decide (2 ^ (sh - 1) < m % 2 ^ sh) ||
      (decide (m % 2 ^ sh = 2 ^ (sh - 1)) && (st || decide (m / 2 ^ sh % 2 = 1)))) = up
  have hq1 : (if up = true then m / 2 ^ sh + 1 else m / 2 ^ sh) ≤ m / 2 ^ sh + 1 := by
    split_ifs <;> omega
  have hq1' : m / 2 ^ sh ≤ (if up = true then m / 2 ^ sh + 1 else m / 2 ^ sh) := by
    split_ifs <;> omega
  generalize (if up = true then m / 2 ^ sh + 1 else m / 2 ^ sh) = q1 at hq1 hq1'
  have hes : (2 : ℚ) ^ (e + (sh : Int)) = 2 ^ sh * 2 ^ e := by
    rw [add_comm, zpow_add₀ h2, zpow_natCast]
  by_cases hc : q1 = 2 ^ 53
  · rw [if_pos hc, if_pos hc]
    have hov : ¬ (971 < e + (sh : Int) + 1) := by push_cast at hhi; omega
    rw [if_neg hov]
    refine ⟨2 ^ 52, e + sh + 1, m / 2 ^ sh, rfl, le_rfl, by norm_num, by push_cast; omega,
      by push_cast; omega, hk, ?_, ?_, ?_, ?_⟩
    · rw [hw, zpow_add₀ h2, hes]
      have : ((m / 2 ^ sh : Nat) : ℚ) ≤ 2 ^ 53 := by exact_mod_cast hq.le
      have hp : (0 : ℚ) < 2 ^ sh * 2 ^ e := by positivity
      calc ((m / 2 ^ sh : Nat) : ℚ) * (2 ^ sh * 2 ^ e) ≤ 2 ^ 53 * (2 ^ sh * 2 ^ e) :=
            mul_le_mul_of_nonneg_right this hp.le
        _ = ((2 ^ 52 : Nat) : ℚ) * (2 ^ sh * 2 ^ e * 2 ^ (1 : Int)) := by push_cast; ring
    · rw [hw, zpow_add₀ h2, hes]
      have : (2 : ℚ) ^ 53 ≤ ((m / 2 ^ sh : Nat) : ℚ) + 1 := by
        have : 2 ^ 53 ≤ m / 2 ^ sh + 1 := by omega
        exact_mod_cast this
      have hp : (0 : ℚ) < 2 ^ sh * 2 ^ e := by positivity
      calc ((2 ^ 52 : Nat) : ℚ) * (2 ^ sh * 2 ^ e * 2 ^ (1 : Int))
          = 2 ^ 53 * (2 ^ sh * 2 ^ e) := by push_cast; ring
        _ ≤ (((m / 2 ^ sh : Nat) : ℚ) + 1) * (2 ^ sh * 2 ^ e) :=
            mul_le_mul_of_nonneg_right this hp.le
    · rw [hw]; exact hdownQ
    · rw [hw]; exact hupperQ
  · rw [if_neg hc, if_neg hc]
    have hov : ¬ (971 < e + (sh : Int)) := by push_cast at hhi; omega
    rw [if_neg hov]
    have hp : (0 : ℚ) < 2 ^ sh * 2 ^ e := by positivity
    refine ⟨q1, e + sh, m / 2 ^ sh, rfl, by omega, by omega, by push_cast; omega,
      by push_cast; omega, hk, ?_, ?_, ?_, ?_⟩
    · rw [hw, hes]
      apply mul_le_mul_of_nonneg_right _ hp.le
      exact_mod_cast hq1'
    · rw [hw, hes]
      apply mul_le_mul_of_nonneg_right _ hp.le
      exact_mod_cast hq1
    · rw [hw]; exact hdownQ
    · rw [hw]; exact hupperQ

/-- Two values in one interval `[k * w, (k + 1) * w]` with `2^52 ≤ k` agree up
to a factor of `1 ± 2^-52`. -/
theorem faithful_rel (k : Nat) (w r v : ℚ) (hk : 2 ^ 52 ≤ k) (hw : 0 ≤ w)
    (h1 : (k : ℚ) * w ≤ r) (h2 : r ≤ ((k : ℚ) + 1) * w)
    (h3 : (k : ℚ) * w ≤ v) (h4 : v ≤ ((k : ℚ) + 1) * w) :
    (1 - 1 / 2 ^ 52) * v ≤ r ∧ r ≤ (1 + 1 / 2 ^ 52) * v := by
  have hkQ : (2 : ℚ) ^ 52 ≤ (k : ℚ) := by exact_mod_cast hk
  have a1 : (1 - 1 / 2 ^ 52) * (((k : ℚ) + 1) * w) ≤ (k : ℚ) * w := by
    rw [← mul_assoc]
    apply mul_le_mul_of_nonneg_right _ hw
    have : (1 : ℚ) ≤ 1 / 2 ^ 52 * ((k : ℚ) + 1) := by
      rw [one_div, inv_mul_eq_div, le_div_iff₀ (by positivity)]
      linarith
    linarith
  have a2 : ((k : ℚ) + 1) * w ≤ (1 + 1 / 2 ^ 52) * ((k : ℚ) * w) := by
    rw [← mul_assoc]
    apply mul_le_mul_of_nonneg_right _ hw
    have : (1 : ℚ) ≤ 1 / 2 ^ 52 * (k : ℚ) := by
      rw [one_div, inv_mul_eq_div, le_div_iff₀ (by positivity)]
      linarith
    linarith
  have p1 : (0 : ℚ) ≤ 1 - 1 / 2 ^ 52 := by norm_num
  have p2 : (0 : ℚ) ≤ 1 + 1 / 2 ^ 52 := by norm_num
  constructor
  · calc (1 - 1 / 2 ^ 52) * v ≤ (1 - 1 / 2 ^ 52) * (((k : ℚ) + 1) * w) :=
          mul_le_mul_of_nonneg_left h4 p1
      _ ≤ (k : ℚ) * w := a1
      _ ≤ r := h1
  · calc r ≤ ((k : ℚ) + 1) * w := h2
      _ ≤ (1 + 1 / 2 ^ 52) * ((k : ℚ) * w) := a2
      _ ≤ (1 + 1 / 2 ^ 52) * v := mul_le_mul_of_nonneg_left h3 p2

/-- The quotient of two positive normal Numbers of moderate exponent is a
positive normal Number within a factor `1 ± 2^-52` of the exact quotient. -/
theorem div_faithful (m n : Nat) (e f : Int) (hm1 : 2 ^ 52 ≤ m) (hm2 : m < 2 ^ 53)
    (hn1 : 2 ^ 52 ≤ n) (hn2 : n < 2 ^ 53) (he1 : -200 ≤ e - f) (he2 : e - f ≤ 200) :
    ∃ q : Nat, ∃ e2 : Int,
      fin false m e / fin false n f = fin false q e2 ∧ 2 ^ 52 ≤ q ∧ q < 2 ^ 53 ∧
      e - f - 54 ≤ e2 ∧ e2 ≤ e - f - 51 ∧
      (1 - 1 / 2 ^ 52) * (((m : ℚ) * 2 ^ e) / ((n : ℚ) * 2 ^ f)) ≤ (q : ℚ) * 2 ^ e2 ∧
      (q : ℚ) * 2 ^ e2 ≤ (1 + 1 / 2 ^ 52) * (((m : ℚ) * 2 ^ e) / ((n : ℚ) * 2 ^ f)) := by
  have h2 : (2 : ℚ) ≠ 0 := by norm_num
  have hn0 : n ≠ 0 := by omega
  have hm0 : m ≠ 0 := by omega
  have hbn : bitLength n = 53 := bitLength_unique n 53 hn1 hn2 (by norm_num)
  have hdiv : fin false m e / fin false n f
      = roundNearestEven false (m * 2 ^ 117 / n) (e - f - 117)
          (decide (m * 2 ^ 117 % n ≠ 0)) := by
    rw [div_def]
    simp only [div]
    rw [if_neg hn0, if_neg hm0, hbn]
    rfl
  have hnpos : 0 < n := Nat.pos_of_ne_zero hn0
  have hq1 : 2 ^ 116 ≤ m * 2 ^ 117 / n := by
    rw [Nat.le_div_iff_mul_le hnpos]
    calc 2 ^ 116 * n ≤ 2 ^ 116 * 2 ^ 53 := Nat.mul_le_mul_left _ hn2.le
      _ = 2 ^ 52 * 2 ^ 117 := by norm_num
      _ ≤ m * 2 ^ 117 := Nat.mul_le_mul_right _ hm1
  have hq2 : m * 2 ^ 117 / n < 2 ^ 118 := by
    rw [Nat.div_lt_iff_lt_mul hnpos]
    calc m * 2 ^ 117 < 2 ^ 53 * 2 ^ 117 := Nat.mul_lt_mul_of_pos_right hm2 (by positivity)
      _ = 2 ^ 118 * 2 ^ 52 := by norm_num
      _ ≤ 2 ^ 118 * n := Nat.mul_le_mul_left _ hn1
  have hq0 : m * 2 ^ 117 / n ≠ 0 := by
    have : 0 < 2 ^ 116 := by positivity
    omega
  have hb1 : 117 ≤ bitLength (m * 2 ^ 117 / n) := le_bitLength _ 116 hq1
  have hb2 : bitLength (m * 2 ^ 117 / n) ≤ 118 := bitLength_le _ 118 hq0 hq2
  obtain ⟨q, e2, k, hr, hqa, hqb, hea, heb, hk, r1, r2, v1, v2⟩ :=
    roundNearestEven_faithful false (m * 2 ^ 117 / n) (e - f - 117)
      (decide (m * 2 ^ 117 % n ≠ 0)) (by omega) (by omega) (by omega)
  have hnQ : (0 : ℚ) < (n : ℚ) := by exact_mod_cast hnpos
  have hE : (2 : ℚ) ^ (e - f - 117) = 2 ^ e / 2 ^ f / 2 ^ 117 := by
    rw [zpow_sub₀ h2, zpow_sub₀ h2]
    norm_cast
  have hEpos : (0 : ℚ) < 2 ^ (e - f - 117) := by positivity
  have hv : ((m : ℚ) * 2 ^ e) / ((n : ℚ) * 2 ^ f)
      = ((m : ℚ) * 2 ^ 117 / n) * 2 ^ (e - f - 117) := by
    rw [hE]
    field_simp
    ring
  have hlow : ((m * 2 ^ 117 / n : Nat) : ℚ) ≤ (m : ℚ) * 2 ^ 117 / n := by
    have := @Nat.cast_div_le ℚ _ (m * 2 ^ 117) n
    push_cast at this
    exact this
  have hhigh : (m : ℚ) * 2 ^ 117 / n ≤ ((m * 2 ^ 117 / n : Nat) : ℚ) + 1 := by
    rw [div_le_iff₀ hnQ]
    have := @Nat.lt_div_mul_add (m * 2 ^ 117) n hnpos
    have h' : m * 2 ^ 117 ≤ (m * 2 ^ 117 / n + 1) * n := by
      rw [add_mul, one_mul]; omega
    exact_mod_cast h'
  have w0 : (0 : ℚ) ≤ 2 ^ (e - f - 117 + (bitLength (m * 2 ^ 117 / n) : Int) - 53) := by
    positivity
  obtain ⟨g1, g2⟩ := faithful_rel k _ ((q : ℚ) * 2 ^ e2)
    (((m : ℚ) * 2 ^ e) / ((n : ℚ) * 2 ^ f)) hk w0 r1 r2
    (by
      rw [hv]
      exact le_trans v1 (mul_le_mul_of_nonneg_right hlow hEpos.le))
    (by
      rw [hv]
      exact le_trans (mul_le_mul_of_nonneg_right hhigh hEpos.le) v2)
  exact ⟨q, e2, hdiv.trans hr, hqa, hqb, by omega, by omega, g1, g2⟩

/-- Multiplying a positive normal Number of moderate exponent by `100` gives a
positive normal Number within a factor `1 ± 2^-52` of the exact product. -/
theorem mul_hundred_faithful (q : Nat) (e : Int) (hq1 : 2 ^ 52 ≤ q) (hq2 : q < 2 ^ 53)
    (he1 : -400 ≤ e) (he2 : e ≤ 400) :
    ∃ p : Nat, ∃ e3 : Int,
      fin false q e * 100 = fin false p e3 ∧
      (1 - 1 / 2 ^ 52) * (100 * ((q : ℚ) * 2 ^ e)) ≤ (p : ℚ) * 2 ^ e3 ∧
      (p : ℚ) * 2 ^ e3 ≤ (1 + 1 / 2 ^ 52) * (100 * ((q : ℚ) * 2 ^ e)) := by
  have h2 : (2 : ℚ) ≠ 0 := by norm_num
  have hmul : fin false q e * 100
      = roundNearestEven false (q * 7036874417766400) (e + -46) false := by
    rw [hundred_eq, mul_def]
    rfl
  have hp1 : 2 ^ 104 ≤ q * 7036874417766400 := by
    calc 2 ^ 104 = 2 ^ 52 * 2 ^ 52 := by norm_num
      _ ≤ q * 7036874417766400 := Nat.mul_le_mul hq1 (by norm_num)
  have hp2 : q * 7036874417766400 < 2 ^ 106 := by
    calc q * 7036874417766400 < 2 ^ 53 * 7036874417766400 :=
          Nat.mul_lt_mul_of_pos_right hq2 (by norm_num)
      _ ≤ 2 ^ 106 := by norm_num
  have hp0 : q * 7036874417766400 ≠ 0 := by
    have : 0 < 2 ^ 104 := by positivity
    omega
  have hb1 : 105 ≤ bitLength (q * 7036874417766400) := le_bitLength _ 104 hp1
  have hb2 : bitLength (q * 7036874417766400) ≤ 106 := bitLength_le _ 106 hp0 hp2
  obtain ⟨p, e3, k, hr, _, _, _, _, hk, r1, r2, v1, v2⟩ :=
    roundNearestEven_faithful false (q * 7036874417766400) (e + -46) false
      (by omega) (by omega) (by omega)
  have hv : 100 * ((q : ℚ) * 2 ^ e) = ((q * 7036874417766400 : Nat) : ℚ) * 2 ^ (e + -46) := by
    rw [zpow_add₀ h2]
    push_cast
    have : (2 : ℚ) ^ (-46 : Int) = 1 / 2 ^ 46 := by
      rw [zpow_neg, one_div]; norm_cast
    rw [this]
    ring
  have hpos : (0 : ℚ) ≤ 2 ^ (e + -46) := by positivity
  have w0 : (0 : ℚ) ≤ 2 ^ (e + -46 + (bitLength (q * 7036874417766400) : Int) - 53) := by
    positivity
  obtain ⟨g1, g2⟩ := faithful_rel k _ ((p : ℚ) * 2 ^ e3) (100 * ((q : ℚ) * 2 ^ e)) hk w0 r1 r2
    (by rw [hv]; exact v1)
    (by
      rw [hv]
      refine le_trans (mul_le_mul_of_nonneg_right ?_ hpos) v2
      linarith)
  exact ⟨p, e3, hmul.trans hr, g1, g2⟩

/-- A Number whose value is a whole number between 1 and `2^50` is positive and
normal. -/
theorem normal_of_represents (x : JSNumber) (N : Nat) (h1 : 1 ≤ N) (h2 : N ≤ 2 ^ 50)
    (hx : Represents x (N : ℚ)) :
    ∃ m : Nat, ∃ e : Int, x = fin false m e ∧ 2 ^ 52 ≤ m ∧ m < 2 ^ 53 ∧ -52 ≤ e ∧ e ≤ -2 ∧
      (m : ℚ) * 2 ^ e = (N : ℚ) := by
  obtain ⟨hcan, hfin, hval⟩ := hx
  have h20 : (2 : ℚ) ≠ 0 := by norm_num
  have hN : (0 : ℚ) < (N : ℚ) := by exact_mod_cast h1
  cases x with
  | nan => simp [isFinite] at hfin
  | inf u => simp [isFinite] at hfin
  | fin s m e =>
    obtain ⟨c1, c2, c3, c4⟩ := hcan
    have hs : s = false := by
      cases s with
      | false => rfl
      | true =>
        exfalso
        simp only [toRat, if_true] at hval
        have : (0 : ℚ) ≤ (m : ℚ) * 2 ^ e := by positivity
        linarith
    subst hs
    have hv : (m : ℚ) * 2 ^ e = (N : ℚ) := by
      simpa [toRat] using hval
    have hm1 : 2 ^ 52 ≤ m := by
      by_contra hlt
      have he : e = -1074 := c4 (by omega)
      rw [he, zpow_neg, ← div_eq_mul_inv, div_eq_iff (by positivity)] at hv
      have hv' : m = N * 2 ^ 1074 := by
        have : (m : ℚ) = ((N * 2 ^ 1074 : Nat) : ℚ) := by
          rw [hv]; push_cast; norm_cast
        exact_mod_cast this
      have : 2 ^ 1074 ≤ N * 2 ^ 1074 := Nat.le_mul_of_pos_left _ (by omega)
      have h52 : (2 : Nat) ^ 52 ≤ 2 ^ 1074 := Nat.pow_le_pow_right (by norm_num) (by norm_num)
      omega
    have he1 : -52 ≤ e := by
      by_contra hlt
      obtain ⟨j, hj⟩ : ∃ j : Nat, e = -((53 + j : Nat) : Int) := ⟨(-e - 53).toNat, by omega⟩
      rw [hj, zpow_neg, zpow_natCast, ← div_eq_mul_inv, div_eq_iff (by positivity)] at hv
      have hv' : m = N * 2 ^ (53 + j) := by exact_mod_cast hv
      have : 2 ^ 53 ≤ N * 2 ^ (53 + j) := by
        calc 2 ^ 53 ≤ 2 ^ (53 + j) := Nat.pow_le_pow_right (by norm_num) (by omega)
          _ ≤ N * 2 ^ (53 + j) := Nat.le_mul_of_pos_left _ (by omega)
      omega
    have he2 : e ≤ -2 := by
      by_contra hlt
      obtain ⟨j, hj⟩ : ∃ j : Nat, e = (j : Int) - 1 := ⟨(e + 1).toNat, by omega⟩
      rw [hj, zpow_sub₀ h20, zpow_natCast, zpow_one, ← mul_div_assoc,
        div_eq_iff (by norm_num)] at hv
      have hv' : m * 2 ^ j = N * 2 := by exact_mod_cast hv
      have : m ≤ m * 2 ^ j := Nat.le_mul_of_pos_right _ (by positivity)
      omega
    exact ⟨m, e, rfl, hm1, c1, he1, he2, hv⟩

/-- Two Numbers with the same non-zero whole value are the same Number. -/
theorem represents_unique (x y : JSNumber) (N : Nat) (hN : N ≠ 0)
    (hx : Represents x (N : ℚ)) (hy : Represents y (N : ℚ)) : x = y := by
  have hc : ((N : Int)) ≠ 0 := by exact_mod_cast hN
  have e1 := roundNearestEven_represents (N : Int) 0 hc x (by simpa using hx)
  have e2 := roundNearestEven_represents (N : Int) 0 hc y (by simpa using hy)
  rw [← e1, ← e2]

/-- The quotient of two whole numbers between 1 and `2^50`, multiplied by `100`,
is a positive finite Number within a factor `(1 ± 2^-52)^2` of the exact
percentage. -/
theorem percent_faithful (d a : JSNumber) (D A : Nat) (hD1 : 1 ≤ D) (hD2 : D ≤ 2 ^ 50)
    (hA1 : 1 ≤ A) (hA2 : A ≤ 2 ^ 50) (hd : Represents d (D : ℚ)) (ha : Represents a (A : ℚ)) :
    ∃ p : Nat, ∃ e : Int, d / a * 100 = fin false p e ∧
      (1 - 1 / 2 ^ 52) ^ 2 * (100 * (D : ℚ) / (A : ℚ)) ≤ (p : ℚ) * 2 ^ e ∧
      (p : ℚ) * 2 ^ e ≤ (1 + 1 / 2 ^ 52) ^ 2 * (100 * (D : ℚ) / (A : ℚ)) := by
  obtain ⟨m, e, rfl, hm1, hm2, he1, he2, hmv⟩ := normal_of_represents d D hD1 hD2 hd
  obtain ⟨n, f, rfl, hn1, hn2, hf1, hf2, hnv⟩ := normal_of_represents a A hA1 hA2 ha
  obtain ⟨q, e2, hq, hq1, hq2, hea, heb, t1, t2⟩ :=
    div_faithful m n e f hm1 hm2 hn1 hn2 (by omega) (by omega)
  obtain ⟨p, e3, hp, u1, u2⟩ := mul_hundred_faithful q e2 hq1 hq2 (by omega) (by omega)
  rw [hmv, hnv] at t1 t2
  have p1 : (0 : ℚ) ≤ 1 - 1 / 2 ^ 52 := by norm_num
  have p2 : (0 : ℚ) ≤ 1 + 1 / 2 ^ 52 := by norm_num
  refine ⟨p, e3, by rw [hq, hp], ?_, ?_⟩
  · calc (1 - 1 / 2 ^ 52) ^ 2 * (100 * (D : ℚ) / (A : ℚ))
        = (1 - 1 / 2 ^ 52) * (100 * ((1 - 1 / 2 ^ 52) * ((D : ℚ) / (A : ℚ)))) := by ring
      _ ≤ (1 - 1 / 2 ^ 52) * (100 * ((q : ℚ) * 2 ^ e2)) :=
          mul_le_mul_of_nonneg_left (mul_le_mul_of_nonneg_left t1 (by norm_num)) p1
      _ ≤ (p : ℚ) * 2 ^ e3 := u1
  · calc (p : ℚ) * 2 ^ e3 ≤ (1 + 1 / 2 ^ 52) * (100 * ((q : ℚ) * 2 ^ e2)) := u2
      _ ≤ (1 + 1 / 2 ^ 52) * (100 * ((1 + 1 / 2 ^ 52) * ((D : ℚ) / (A : ℚ)))) :=
          mul_le_mul_of_nonneg_left (mul_le_mul_of_nonneg_left t2 (by norm_num)) p2
      _ = (1 + 1 / 2 ^ 52) ^ 2 * (100 * (D : ℚ) / (A : ℚ)) := by ring

/-- The error factors `(1 ± 2^-52)^2` cannot bridge the gap between the
percentages of one difference over two distinct whole areas up to `2^50`. -/
theorem percent_separated (D A B : Nat) (hD : 1 ≤ D) (hA : 1 ≤ A) (hAB : A < B)
    (hB : B ≤ 2 ^ 50) :
    (1 + 1 / 2 ^ 52) ^ 2 * (100 * (D : ℚ) / (B : ℚ))
      < (1 - 1 / 2 ^ 52) ^ 2 * (100 * (D : ℚ) / (A : ℚ)) := by
  have hAQ : (0 : ℚ) < (A : ℚ) := by exact_mod_cast hA
  have hBQ : (0 : ℚ) < (B : ℚ) := by
    have : 0 < B := by omega
    exact_mod_cast this
  have hDQ : (0 : ℚ) < (D : ℚ) := by exact_mod_cast hD
  have hA50 : (A : ℚ) ≤ 2 ^ 50 - 1 := by
    have : A + 1 ≤ 2 ^ 50 := by omega
    have h' : ((A + 1 : Nat) : ℚ) ≤ ((2 ^ 50 : Nat) : ℚ) := by exact_mod_cast this
    push_cast at h'
    linarith
  have hAB' : (A : ℚ) + 1 ≤ (B : ℚ) := by exact_mod_cast hAB
  have key : (1 + 1 / 2 ^ 52) ^ 2 * (A : ℚ) < (1 - 1 / 2 ^ 52) ^ 2 * (B : ℚ) := by
    have s1 : (1 + 1 / 2 ^ 52 : ℚ) ^ 2 * (A : ℚ)
        = (1 - 1 / 2 ^ 52) ^ 2 * (A : ℚ) + 1 / 2 ^ 50 * (A : ℚ) := by ring
    have s2 : (1 / 2 ^ 50 : ℚ) * (A : ℚ) ≤ 1 / 2 ^ 50 * (2 ^ 50 - 1) :=
      mul_le_mul_of_nonneg_left hA50 (by norm_num)
    have s3 : (1 / 2 ^ 50 : ℚ) * (2 ^ 50 - 1) < (1 - 1 / 2 ^ 52) ^ 2 := by norm_num
    have s4 : (1 - 1 / 2 ^ 52 : ℚ) ^ 2 * ((A : ℚ) + 1) ≤ (1 - 1 / 2 ^ 52) ^ 2 * (B : ℚ) :=
      mul_le_mul_of_nonneg_left hAB' (sq_nonneg _)
    rw [s1]
    linarith
  have e1 : (1 + 1 / 2 ^ 52 : ℚ) ^ 2 * (100 * (D : ℚ) / (B : ℚ))
      = (100 * (D : ℚ) / ((A : ℚ) * (B : ℚ))) * ((1 + 1 / 2 ^ 52) ^ 2 * (A : ℚ)) := by
    field_simp
    ring
  have e2 : (1 - 1 / 2 ^ 52 : ℚ) ^ 2 * (100 * (D : ℚ) / (A : ℚ))
      = (100 * (D : ℚ) / ((A : ℚ) * (B : ℚ))) * ((1 - 1 / 2 ^ 52) ^ 2 * (B : ℚ)) := by
    field_simp
    ring
  rw [e1, e2]
  exact mul_lt_mul_of_pos_left key (by positivity)

/-- Dividing one difference by two distinct whole areas up to `2^50` and
multiplying by `100` gives two distinct Numbers. -/
theorem percent_injective (d a b : JSNumber) (D A B : Nat) (hD1 : 1 ≤ D) (hD2 : D ≤ 2 ^ 50)
    (hA1 : 1 ≤ A) (hB2 : B ≤ 2 ^ 50) (hAB : A < B) (hd : Represents d (D : ℚ))
    (ha : Represents a (A : ℚ)) (hb : Represents b (B : ℚ)) :
    d / a * 100 ≠ d / b * 100 := by
  obtain ⟨p, e, hp, l1, _⟩ := percent_faithful d a D A hD1 hD2 hA1 (by omega) hd ha
  obtain ⟨q, f, hq, _, u2⟩ := percent_faithful d b D B hD1 hD2 (by omega) hB2 hd hb
  have hs := percent_separated D A B hD1 hA1 hAB hB2
  intro h
  rw [hp, hq] at h
  injection h with _ h1 h2
  subst h1
  subst h2
  linarith

end JSNumber

/-! ## Exchanging the roles of the two rectangles -/

/-- C8 (as stated, refuted): the rectangles A = (0,0,75000001,74999999) and
B = (0,0,75000000,75000000) have the different non-zero areas 5624999999999999
and 5625000000000000, yet `areaDiffPercent` is the same Number whichever of the
two is the ground truth: both quotients round to the same value. -/
theorem C8_counterexample :
    gtArea (requestOf ⟨0, 0, 75000001, 74999999⟩ ⟨0, 0, 75000000, 75000000⟩)
      = 5624999999999999 ∧
    xaiArea (requestOf ⟨0, 0, 75000001, 74999999⟩ ⟨0, 0, 75000000, 75000000⟩)
      = 5625000000000000 ∧
    gtArea (requestOf ⟨0, 0, 75000001, 74999999⟩ ⟨0, 0, 75000000, 75000000⟩)
      ≠ xaiArea (requestOf ⟨0, 0, 75000001, 74999999⟩ ⟨0, 0, 75000000, 75000000⟩) ∧
    areaDiffPercent (requestOf ⟨0, 0, 75000001, 74999999⟩ ⟨0, 0, 75000000, 75000000⟩)
      = areaDiffPercent (requestOf ⟨0, 0, 75000000, 75000000⟩ ⟨0, 0, 75000001, 74999999⟩) ∧
    (areaDiffPercent (requestOf ⟨0, 0, 75000001, 74999999⟩
      ⟨0, 0, 75000000, 75000000⟩)).toString = "1.777777777777778e-14" ∧
    (gtArea (requestOf ⟨0, 0, 75000001, 74999999⟩ ⟨0, 0, 75000000, 75000000⟩)).toRat
      = 5624999999999999 ∧
    (xaiArea (requestOf ⟨0, 0, 75000001, 74999999⟩ ⟨0, 0, 75000000, 75000000⟩)).toRat
      = 5625000000000000 := by
  have h1 : gtArea (requestOf ⟨0, 0, 75000001, 74999999⟩ ⟨0, 0, 75000000, 75000000⟩)
      = JSNumber.fin false 5624999999999999 0 := by decide
  have h2 : xaiArea (requestOf ⟨0, 0, 75000001, 74999999⟩ ⟨0, 0, 75000000, 75000000⟩)
      = JSNumber.fin false 5625000000000000 0 := by decide
  refine ⟨by decide, by decide, by decide, by decide, by decide, ?_, ?_⟩
  · rw [h1]; simp [JSNumber.toRat]
  · rw [h2]; simp [JSNumber.toRat]

/-- When the two computed areas are distinct whole numbers between 1 and `2^50`,
exchanging the roles of the two rectangles changes `areaDiffPercent`. -/
theorem areaDiffPercent_swapRoles_ne (data : AnalysisData) (A B : Nat) (hA1 : 1 ≤ A)
    (hA2 : A ≤ 2 ^ 50) (hB1 : 1 ≤ B) (hB2 : B ≤ 2 ^ 50)
    (hA : (gtArea data).Represents (A : ℚ)) (hB : (xaiArea data).Represents (B : ℚ))
    (hne : A ≠ B) :
    areaDiffPercent data.swapRoles ≠ areaDiffPercent data := by
  have h1 : gtArea data.swapRoles = xaiArea data := rfl
  have h2 : xaiArea data.swapRoles = gtArea data := rfl
  have hd : areaDiff data.swapRoles = areaDiff data := by
    unfold areaDiff
    rw [h1, h2]
    exact JSNumber.abs_sub_comm _ _
  have hrep : ∃ r : JSNumber, r.Represents ((A : ℚ) - (B : ℚ)) := by
    have := JSNumber.int_representable ((A : Int) - (B : Int)) (by omega)
    push_cast at this
    exact this
  have hdiff : (areaDiff data).Represents |(A : ℚ) - (B : ℚ)| :=
    JSNumber.abs_represents _ _ (JSNumber.sub_represents _ _ _ _ hA hB hrep)
  have hs : areaDiffPercent data.swapRoles = areaDiff data / xaiArea data * 100 := by
    unfold areaDiffPercent
    rw [hd, h1]
  have hp : areaDiffPercent data = areaDiff data / gtArea data * 100 := rfl
  rw [hs, hp]
  rcases Nat.lt_or_gt_of_ne hne with hlt | hgt
  · have hD : |(A : ℚ) - (B : ℚ)| = ((B - A : Nat) : ℚ) := by
      rw [Nat.cast_sub hlt.le, abs_sub_comm, abs_of_nonneg]
      have : (A : ℚ) ≤ (B : ℚ) := by exact_mod_cast hlt.le
      linarith
    rw [hD] at hdiff
    exact (JSNumber.percent_injective (areaDiff data) (gtArea data) (xaiArea data)
      (B - A) A B (by omega) (by omega) hA1 hB2 hlt hdiff hA hB).symm
  · have hD : |(A : ℚ) - (B : ℚ)| = ((A - B : Nat) : ℚ) := by
      rw [Nat.cast_sub hgt.le, abs_of_nonneg]
      have : (B : ℚ) ≤ (A : ℚ) := by exact_mod_cast hgt.le
      linarith
    rw [hD] at hdiff
    exact JSNumber.percent_injective (areaDiff data) (xaiArea data) (gtArea data)
      (A - B) B A (by omega) (by omega) hB1 hA2 hgt hdiff hB hA

/-- C8 (amended): `areaDiff` is the same whichever rectangle is the ground
truth, and equal areas give the same `areaDiffPercent` in both orders. When the
two computed areas are whole numbers between 1 and `2^50`, as they are for
rectangles of non-zero area with integer corners of magnitude at most `2^24`,
`areaDiffPercent` is the same in both orders if and only if the areas are
equal. -/
theorem C8_swap_roles (data : AnalysisData) :
    areaDiff data.swapRoles = areaDiff data ∧
    (gtArea data = xaiArea data →
      areaDiffPercent data.swapRoles = areaDiffPercent data) ∧
    (∀ A B : Nat, 1 ≤ A → A ≤ 2 ^ 50 → 1 ≤ B → B ≤ 2 ^ 50 →
      (gtArea data).Represents (A : ℚ) → (xaiArea data).Represents (B : ℚ) →
      (areaDiffPercent data.swapRoles = areaDiffPercent data ↔ A = B)) ∧
    (∀ a1 b1 a2 b2 c1 d1 c2 d2 : Int,
      data.groundTruth.HasIntegerCorners a1 b1 a2 b2 →
      data.xaiGenerated.HasIntegerCorners c1 d1 c2 d2 →
      (a1.natAbs ≤ 2 ^ 24 ∧ b1.natAbs ≤ 2 ^ 24 ∧ a2.natAbs ≤ 2 ^ 24 ∧ b2.natAbs ≤ 2 ^ 24) →
      (c1.natAbs ≤ 2 ^ 24 ∧ d1.natAbs ≤ 2 ^ 24 ∧ c2.natAbs ≤ 2 ^ 24 ∧ d2.natAbs ≤ 2 ^ 24) →
      (a2 - a1) * (b2 - b1) ≠ 0 → (c2 - c1) * (d2 - d1) ≠ 0 →
      (areaDiffPercent data.swapRoles = areaDiffPercent data ↔
        ((a2 - a1) * (b2 - b1)).natAbs = ((c2 - c1) * (d2 - d1)).natAbs)) := by
  have h1 : gtArea data.swapRoles = xaiArea data := rfl
  have h2 : xaiArea data.swapRoles = gtArea data := rfl
  have hd : areaDiff data.swapRoles = areaDiff data := by
    unfold areaDiff
    rw [h1, h2]
    exact JSNumber.abs_sub_comm _ _
  have heq : gtArea data = xaiArea data →
      areaDiffPercent data.swapRoles = areaDiffPercent data := by
    intro h
    unfold areaDiffPercent
    rw [hd, h1, h]
  have hiff : ∀ A B : Nat, 1 ≤ A → A ≤ 2 ^ 50 → 1 ≤ B → B ≤ 2 ^ 50 →
      (gtArea data).Represents (A : ℚ) → (xaiArea data).Represents (B : ℚ) →
      (areaDiffPercent data.swapRoles = areaDiffPercent data ↔ A = B) := by
    intro A B hA1 hA2 hB1 hB2 hA hB
    constructor
    · intro h
      by_contra hne
      exact areaDiffPercent_swapRoles_ne data A B hA1 hA2 hB1 hB2 hA hB hne h
    · intro h
      subst h
      exact heq (JSNumber.represents_unique _ _ A (by omega) hA hB)
  refine ⟨hd, heq, hiff, ?_⟩
  intro a1 b1 a2 b2 c1 d1 c2 d2 hgt hxai bg bx ng nx
  have hA : (gtArea data).Represents ((((a2 - a1) * (b2 - b1)).natAbs : Nat) : ℚ) :=
    area_exact _ _ _ _ _ hgt
  have hB : (xaiArea data).Represents ((((c2 - c1) * (d2 - d1)).natAbs : Nat) : ℚ) :=
    area_exact _ _ _ _ _ hxai
  have bA : ((a2 - a1) * (b2 - b1)).natAbs ≤ 2 ^ 50 := by
    obtain ⟨b1', b2', b3', b4'⟩ := bg
    rw [Int.natAbs_mul]
    have a1' : (a2 - a1).natAbs ≤ 2 ^ 25 := by omega
    have a2' : (b2 - b1).natAbs ≤ 2 ^ 25 := by omega
    calc (a2 - a1).natAbs * (b2 - b1).natAbs ≤ 2 ^ 25 * 2 ^ 25 := Nat.mul_le_mul a1' a2'
      _ = 2 ^ 50 := by norm_num
  have bB : ((c2 - c1) * (d2 - d1)).natAbs ≤ 2 ^ 50 := by
    obtain ⟨b1', b2', b3', b4'⟩ := bx
    rw [Int.natAbs_mul]
    have a1' : (c2 - c1).natAbs ≤ 2 ^ 25 := by omega
    have a2' : (d2 - d1).natAbs ≤ 2 ^ 25 := by omega
    calc (c2 - c1).natAbs * (d2 - d1).natAbs ≤ 2 ^ 25 * 2 ^ 25 := Nat.mul_le_mul a1' a2'
      _ = 2 ^ 50 := by norm_num
  exact hiff _ _ (Int.natAbs_pos.mpr ng) bA (Int.natAbs_pos.mpr nx) bB hA hB

/-- C8 (amended), at the rectangles (0,0,10,10) and (0,0,20,20) of areas 100
and 400: the difference 300 is 300 % of the one area and 75 % of the other, so
exchanging the roles changes `areaDiffPercent`. -/
theorem C8_swap_roles_witness :
    (requestOf ⟨0, 0, 10, 10⟩ ⟨0, 0, 20, 20⟩).groundTruth.HasIntegerCorners 0 0 10 10 ∧
    (requestOf ⟨0, 0, 10, 10⟩ ⟨0, 0, 20, 20⟩).xaiGenerated.HasIntegerCorners 0 0 20 20 ∧
    areaDiff (requestOf ⟨0, 0, 10, 10⟩ ⟨0, 0, 20, 20⟩).swapRoles
      = areaDiff (requestOf ⟨0, 0, 10, 10⟩ ⟨0, 0, 20, 20⟩) ∧
    areaDiffPercent (requestOf ⟨0, 0, 10, 10⟩ ⟨0, 0, 20, 20⟩) = 300 ∧
    areaDiffPercent (requestOf ⟨0, 0, 10, 10⟩ ⟨0, 0, 20, 20⟩).swapRoles = 75 ∧
    (areaDiffPercent (requestOf ⟨0, 0, 10, 10⟩ ⟨0, 0, 20, 20⟩)).toFixed 1 = "300.0" ∧
    (areaDiffPercent (requestOf ⟨0, 0, 10, 10⟩ ⟨0, 0, 20, 20⟩).swapRoles).toFixed 1 = "75.0" ∧
    areaDiffPercent (requestOf ⟨0, 0, 10, 10⟩ ⟨0, 0, 20, 20⟩).swapRoles
      ≠ areaDiffPercent (requestOf ⟨0, 0, 10, 10⟩ ⟨0, 0, 20, 20⟩) := by
  have h0 : (0 : JSNumber).Represents ((0 : Int) : ℚ) := by
    simpa using JSNumber.ofNat_represents 0 (by norm_num)
  have h10 : (10 : JSNumber).Represents ((10 : Int) : ℚ) := by
    simpa using JSNumber.ofNat_represents 10 (by norm_num)
  have h20 : (20 : JSNumber).Represents ((20 : Int) : ℚ) := by
    simpa using JSNumber.ofNat_represents 20 (by norm_num)
  have hgt : (requestOf ⟨0, 0, 10, 10⟩ ⟨0, 0, 20, 20⟩).groundTruth.HasIntegerCorners 0 0 10 10 :=
    ⟨⟨h0, h0, h10, h10⟩, by decide⟩
  have hxai :
      (requestOf ⟨0, 0, 10, 10⟩ ⟨0, 0, 20, 20⟩).xaiGenerated.HasIntegerCorners 0 0 20 20 :=
    ⟨⟨h0, h0, h20, h20⟩, by decide⟩
  have h := (C8_swap_roles (requestOf ⟨0, 0, 10, 10⟩ ⟨0, 0, 20, 20⟩)).2.2.2
    0 0 10 10 0 0 20 20 hgt hxai (by decide) (by decide) (by decide) (by decide)
  exact ⟨hgt, hxai, (C8_swap_roles _).1, by decide, by decide, by decide, by decide,
    fun e => absurd (h.mp e) (by decide)⟩

/-! ## Fixed-precision rendering -/

/-- The metrics are never negative: each is NaN, +Infinity, or finite with a
positive sign bit. -/
theorem metrics_isNonNeg (data : AnalysisData) :
    (gtArea data).IsNonNeg ∧ (xaiArea data).IsNonNeg ∧ (areaDiff data).IsNonNeg ∧
    (centerDistance data).IsNonNeg ∧ (areaDiffPercent data).IsNonNeg :=
  ⟨JSNumber.abs_isNonNeg _, JSNumber.abs_isNonNeg _, JSNumber.abs_isNonNeg _,
    JSNumber.sqrt_isNonNeg _
      (JSNumber.add_isNonNeg _ _ (JSNumber.pow2_isNonNeg _) (JSNumber.pow2_isNonNeg _)),
    JSNumber.mul_isNonNeg _ _
      (JSNumber.div_isNonNeg _ _ (JSNumber.abs_isNonNeg _) (JSNumber.abs_isNonNeg _))
      JSNumber.hundred_isNonNeg⟩

/-- A non-negative finite Number below `10^21` is rendered by `toFixed(f)`, for
`f ≥ 1`, as its plain decimal numeral rounded to `f` places. -/
theorem toFixed_isRoundedDecimal (x : JSNumber) (f : Nat) (hf : f ≠ 0) (hx : x.IsNonNeg)
    (hfin : x.isFinite = true) (hlt : x.toRat < 10 ^ 21) :
    IsRoundedDecimal f x (x.toFixed f) := by
  cases x with
  | nan => simp [JSNumber.isFinite] at hfin
  | inf s => simp [JSNumber.isFinite] at hfin
  | fin s m e =>
    simp only [JSNumber.IsNonNeg] at hx
    subst hx
    exact ⟨JSNumber.nearestScaled m e f, (JSNumber.nearestScaled_spec m e f).1,
      (JSNumber.nearestScaled_spec m e f).2, JSNumber.toFixed_eq m e f hf hlt⟩

/-- The places of the template that interpolate the metrics (lines 230-233
and 287). -/
theorem metric_places (data : AnalysisData) :
    ["- **Ground Truth Area**: ", (gtArea data).toFixed 2, " square units\n"]
      <:+: templateParts data ∧
    ["- **XAI Generated Area**: ", (xaiArea data).toFixed 2, " square units\n"]
      <:+: templateParts data ∧
    ["- **Area Difference**: ", (areaDiff data).toFixed 2, " square units (",
      (areaDiffPercent data).toFixed 1, "% difference)\n"] <:+: templateParts data ∧
    ["- **Center Point Distance**: ", (centerDistance data).toFixed 2, " units\n"]
      <:+: templateParts data ∧
    ["The observed discrepancy (", (areaDiffPercent data).toFixed 1,
      "% area difference) suggests that while "] <:+: templateParts data ∧
    [" provides useful insights, there\x27s room for improvement in localization accuracy. The ",
      (centerDistance data).toFixed 2, " unit center distance indicates moderate spatial alignment issues that should be addressed through the recommended improvements.\n"]
      <:+: templateParts data :=
  ⟨⟨(templateParts data).take 14, (templateParts data).drop 17, rfl⟩,
    ⟨(templateParts data).take 17, (templateParts data).drop 20, rfl⟩,
    ⟨(templateParts data).take 20, (templateParts data).drop 25, rfl⟩,
    ⟨(templateParts data).take 25, (templateParts data).drop 28, rfl⟩,
    ⟨(templateParts data).take 105, (templateParts data).drop 108, rfl⟩,
    ⟨(templateParts data).take 109, (templateParts data).drop 112, rfl⟩⟩

/-- C10 (as stated, refuted): for groundTruth = (0,0,1e11,1e11), whose
coordinates are finite and whose area 1e22 is not zero, the report renders
`gtArea` as "1e+22", not as a numeral with 2 digits after a decimal point. -/
theorem C10_counterexample :
    ((JSNumber.ofNat (10 ^ 11)).Canonical ∧ (JSNumber.ofNat (10 ^ 11)).isFinite = true ∧
      (JSNumber.ofNat (10 ^ 11)).toString = "100000000000") ∧
    gtArea (requestOf ⟨0, 0, .ofNat (10 ^ 11), .ofNat (10 ^ 11)⟩ ⟨5, 5, 15, 15⟩)
      = JSNumber.ofNat (10 ^ 22) ∧
    (gtArea (requestOf ⟨0, 0, .ofNat (10 ^ 11), .ofNat (10 ^ 11)⟩ ⟨5, 5, 15, 15⟩)).toFixed 2
      = "1e+22" ∧
    ["- **Ground Truth Area**: ", "1e+22", " square units\n"]
      <:+: templateParts (requestOf ⟨0, 0, .ofNat (10 ^ 11), .ofNat (10 ^ 11)⟩ ⟨5, 5, 15, 15⟩) := by
  have h : (gtArea (requestOf ⟨0, 0, .ofNat (10 ^ 11), .ofNat (10 ^ 11)⟩
      ⟨5, 5, 15, 15⟩)).toFixed 2 = "1e+22" := by decide
  refine ⟨by decide, by decide, h, ?_⟩
  have p := (metric_places (requestOf ⟨0, 0, .ofNat (10 ^ 11), .ofNat (10 ^ 11)⟩
    ⟨5, 5, 15, 15⟩)).1
  rw [h] at p
  exact p

/-- C10 (amended): in the report of any request, each of `gtArea`, `xaiArea`,
`areaDiff` and `centerDistance` that is finite and below 10^21 is rendered as a
plain decimal numeral with exactly 2 digits after the decimal point, and
`areaDiffPercent`, when finite and below 10^21, with exactly 1 digit, each
being the metric rounded to that precision (a tie goes up). -/
theorem C10_fixed_precision_rendering (data : AnalysisData) :
    (∀ x ∈ [gtArea data, xaiArea data, areaDiff data, centerDistance data],
      x.isFinite = true → x.toRat < 10 ^ 21 → IsRoundedDecimal 2 x (x.toFixed 2)) ∧
    ((areaDiffPercent data).isFinite = true → (areaDiffPercent data).toRat < 10 ^ 21 →
      IsRoundedDecimal 1 (areaDiffPercent data) ((areaDiffPercent data).toFixed 1)) ∧
    (["- **Ground Truth Area**: ", (gtArea data).toFixed 2, " square units\n"]
        <:+: templateParts data ∧
      ["- **XAI Generated Area**: ", (xaiArea data).toFixed 2, " square units\n"]
        <:+: templateParts data ∧
      ["- **Area Difference**: ", (areaDiff data).toFixed 2, " square units (",
        (areaDiffPercent data).toFixed 1, "% difference)\n"] <:+: templateParts data ∧
      ["- **Center Point Distance**: ", (centerDistance data).toFixed 2, " units\n"]
        <:+: templateParts data ∧
      ["The observed discrepancy (", (areaDiffPercent data).toFixed 1,
        "% area difference) suggests that while "] <:+: templateParts data) := by
  obtain ⟨h1, h2, h3, h4, h5⟩ := metrics_isNonNeg data
  obtain ⟨p1, p2, p3, p4, p5, -⟩ := metric_places data
  refine ⟨?_, fun hf hl => toFixed_isRoundedDecimal _ 1 (by decide) h5 hf hl, p1, p2, p3, p4, p5⟩
  intro x hx hf hl
  simp only [List.mem_cons, List.mem_singleton, List.not_mem_nil, or_false] at hx
  rcases hx with rfl | rfl | rfl | rfl
  · exact toFixed_isRoundedDecimal _ 2 (by decide) h1 hf hl
  · exact toFixed_isRoundedDecimal _ 2 (by decide) h2 hf hl
  · exact toFixed_isRoundedDecimal _ 2 (by decide) h3 hf hl
  · exact toFixed_isRoundedDecimal _ 2 (by decide) h4 hf hl

/-- C10 (amended), at groundTruth = (0,0,10,10) and xaiGenerated = (5,5,15,15):
`centerDistance` is finite and below 10^21, and is rendered as "7.07". -/
theorem C10_fixed_precision_witness :
    (centerDistance (requestOf ⟨0, 0, 10, 10⟩ ⟨5, 5, 15, 15⟩)).isFinite = true ∧
    (centerDistance (requestOf ⟨0, 0, 10, 10⟩ ⟨5, 5, 15, 15⟩)).toRat < 10 ^ 21 ∧
    (centerDistance (requestOf ⟨0, 0, 10, 10⟩ ⟨5, 5, 15, 15⟩)).toFixed 2 = "7.07" ∧
    IsRoundedDecimal 2 (centerDistance (requestOf ⟨0, 0, 10, 10⟩ ⟨5, 5, 15, 15⟩))
      ((centerDistance (requestOf ⟨0, 0, 10, 10⟩ ⟨5, 5, 15, 15⟩)).toFixed 2) := by
  have hv : centerDistance (requestOf ⟨0, 0, 10, 10⟩ ⟨5, 5, 15, 15⟩)
      = JSNumber.fin false 7961314590657216 (-50) := by decide
  have hlt : (centerDistance (requestOf ⟨0, 0, 10, 10⟩ ⟨5, 5, 15, 15⟩)).toRat < 10 ^ 21 := by
    rw [hv]
    simp only [JSNumber.toRat]
    norm_num
  exact ⟨by decide, hlt, by decide,
    (C10_fixed_precision_rendering (requestOf ⟨0, 0, 10, 10⟩ ⟨5, 5, 15, 15⟩)).1 _
      (by simp) (by decide) hlt⟩

/-! ## Known values of the Number model -/

/-- Well-known results of ECMAScript arithmetic and formatting, as the model
computes them. -/
theorem number_model_known_values :
    ((1 : JSNumber) / 10 + 2 / 10).toString = "0.30000000000000004" ∧
    ((1 : JSNumber) / 3).toString = "0.3333333333333333" ∧
    (Math.sqrt 2).toString = "1.4142135623730951" ∧
    ((1005 : JSNumber) / 1000).toFixed 2 = "1.00" ∧
    ((1 : JSNumber) / 8).toFixed 2 = "0.13" ∧
    (JSNumber.ofNat (10 ^ 21)).toFixed 2 = "1e+21" ∧
    (JSNumber.ofNat (10 ^ 20)).toString = "100000000000000000000" ∧
    ((1 : JSNumber) / 10000000).toString = "1e-7" ∧
    (JSNumber.fin false 1 (-1074)).toString = "5e-324" ∧
    (JSNumber.fin false (2 ^ 53 - 1) 971).toString = "1.7976931348623157e+308" ∧
    JSNumber.fin false (2 ^ 53 - 1) 971 * 2 = JSNumber.inf false ∧
    (0 : JSNumber) / 0 = JSNumber.nan ∧
    (1 : JSNumber) / 0 = JSNumber.inf false := by
  decide

/-! ## Validation of the form -/

/-- The function `validateInputs` returns true exactly when every required
field is a non-empty string and one of the two image sources is not 'data:,'. -/
theorem validateInputs_iff (ui : FormState) :
    validateInputs ui = true ↔
      (JSString.trim ui.promptEditor ≠ "" ∧
        (ui.gtX1 ≠ "" ∧ ui.gtY1 ≠ "" ∧ ui.gtX2 ≠ "" ∧ ui.gtY2 ≠ "" ∧
          ui.xaiX1 ≠ "" ∧ ui.xaiY1 ≠ "" ∧ ui.xaiX2 ≠ "" ∧ ui.xaiY2 ≠ "") ∧
        (ui.xaiTechnique ≠ "" ∧ ui.modelArchitecture ≠ "" ∧ ui.dataset ≠ "")) ∧
      (ui.originalImage.src ≠ "data:," ∨ ui.heatmapImage.src ≠ "data:,") := by
  unfold validateInputs requiredFields hasImages
  simp only [List.all_cons, List.all_nil, Bool.and_true, Bool.and_eq_true, Bool.or_eq_true,
    decide_eq_true_eq]
  tauto

/-- When validation fails, `handleSubmit` only shows the error notification. -/
theorem handleSubmit_of_invalid (setItemThrows : Bool) (ui : FormState)
    (h : validateInputs ui = false) :
    handleSubmit setItemThrows ui
      = (ui, [Call.showNotification "Please fill in all required fields and upload images"
          "error"]) := by
  unfold handleSubmit
  rw [h]
  rfl

/-- When validation succeeds, `handleSubmit` sets the loading state, invokes
`simulateLLMAnalysis` on the prepared data, and resets the loading state. -/
theorem handleSubmit_of_valid (setItemThrows : Bool) (ui : FormState)
    (h : validateInputs ui = true) :
    Call.setLoadingState true ∈ (handleSubmit setItemThrows ui).2 ∧
    Call.simulateLLMAnalysis (prepareAnalysisData ui) ∈ (handleSubmit setItemThrows ui).2 ∧
    Call.setLoadingState false ∈ (handleSubmit setItemThrows ui).2 := by
  have hp : prepareAnalysisData (setLoadingState true ui) = prepareAnalysisData ui := rfl
  unfold handleSubmit
  rw [h]
  cases setItemThrows <;> simp [hp]

/-- C11: `validateInputs` returns true if and only if the trimmed prompt, each
of the eight coordinate fields and each of the three metadata fields is
non-empty and the display source of the original or of the heatmap image
differs from 'data:,'. When it returns false, `handleSubmit` returns after the
error notification alone, without invoking `simulateLLMAnalysis` and without
changing the loading state (no call of `setLoadingState`, and the form is left
as it was); when it returns true, `simulateLLMAnalysis` is invoked. -/
theorem C11_validation_gates_submission (setItemThrows : Bool) (ui : FormState) :
    (validateInputs ui = true ↔
      (JSString.trim ui.promptEditor ≠ "" ∧
        (ui.gtX1 ≠ "" ∧ ui.gtY1 ≠ "" ∧ ui.gtX2 ≠ "" ∧ ui.gtY2 ≠ "" ∧
          ui.xaiX1 ≠ "" ∧ ui.xaiY1 ≠ "" ∧ ui.xaiX2 ≠ "" ∧ ui.xaiY2 ≠ "") ∧
        (ui.xaiTechnique ≠ "" ∧ ui.modelArchitecture ≠ "" ∧ ui.dataset ≠ "")) ∧
      (ui.originalImage.src ≠ "data:," ∨ ui.heatmapImage.src ≠ "data:,")) ∧
    (validateInputs ui = false →
      (handleSubmit setItemThrows ui).1 = ui ∧
      (handleSubmit setItemThrows ui).2
        = [Call.showNotification "Please fill in all required fields and upload images"
            "error"] ∧
      (∀ data, Call.simulateLLMAnalysis data ∉ (handleSubmit setItemThrows ui).2) ∧
      (∀ isLoading, Call.setLoadingState isLoading ∉ (handleSubmit setItemThrows ui).2)) ∧
    (validateInputs ui = true →
      Call.simulateLLMAnalysis (prepareAnalysisData ui) ∈ (handleSubmit setItemThrows ui).2 ∧
      Call.setLoadingState true ∈ (handleSubmit setItemThrows ui).2) := by
  refine ⟨validateInputs_iff ui, fun h => ?_, fun h => ?_⟩
  · rw [handleSubmit_of_invalid setItemThrows ui h]
    exact ⟨rfl, rfl, fun data => by simp, fun isLoading => by simp⟩
  · obtain ⟨h1, h2, -⟩ := handleSubmit_of_valid setItemThrows ui h
    exact ⟨h2, h1⟩

/-- C11, at a form with every field filled in but no image (validation fails,
nothing but the notification happens) and at a completed form (validation
succeeds and the analysis of the rectangles (0,0,10,10) and (5,5,15,15) is
invoked). -/
theorem C11_validation_witness :
    (validateInputs { filledForm with originalImage := emptySlot } = false ∧
      (handleSubmit false { filledForm with originalImage := emptySlot }).1
        = { filledForm with originalImage := emptySlot } ∧
      (handleSubmit false { filledForm with originalImage := emptySlot }).2
        = [Call.showNotification "Please fill in all required fields and upload images"
            "error"]) ∧
    (validateInputs filledForm = true ∧
      (prepareAnalysisData filledForm).groundTruth = ⟨0, 0, 10, 10⟩ ∧
      (prepareAnalysisData filledForm).xaiGenerated = ⟨5, 5, 15, 15⟩ ∧
      Call.simulateLLMAnalysis (prepareAnalysisData filledForm)
        ∈ (handleSubmit false filledForm).2) := by
  have h1 : validateInputs { filledForm with originalImage := emptySlot } = false := by decide
  have h2 : validateInputs filledForm = true := by decide
  have a := (C11_validation_gates_submission false
    { filledForm with originalImage := emptySlot }).2.1 h1
  have b := (C11_validation_gates_submission false filledForm).2.2 h2
  exact ⟨⟨h1, a.1, a.2.1⟩, h2, by decide, by decide, b.1⟩

/-! ## Validation of an uploaded file -/

/-- The outcome of `validateAndDisplayImage` in each of its three cases. -/
theorem validateAndDisplayImage_cases (file : File) (type : UploadType)
    (loaded : Option String) (ui : FormState) :
    (JSString.startsWith file.type "image/" = false ∧
      validateAndDisplayImage file type loaded ui
        = (ui, [Call.showNotification "Please select a valid image file" "error"])) ∨
    (JSString.startsWith file.type "image/" = true ∧ maxImageSize < file.size ∧
      validateAndDisplayImage file type loaded ui
        = (ui, [Call.showNotification "Image size must be less than 5MB" "error"])) ∨
    (JSString.startsWith file.type "image/" = true ∧ file.size ≤ maxImageSize ∧
      Call.readAsDataURL file ∈ (validateAndDisplayImage file type loaded ui).2) := by
  unfold validateAndDisplayImage
  cases hs : JSString.startsWith file.type "image/"
  · left
    exact ⟨rfl, rfl⟩
  · right
    by_cases hz : file.size > maxImageSize
    · left
      refine ⟨rfl, hz, ?_⟩
      simp [hz]
    · right
      refine ⟨rfl, not_lt.mp hz, ?_⟩
      cases loaded <;> simp [hz]

/-- The code at the limit: an image file of exactly `5 * 1024 * 1024` bytes
passes the test `file.size > 5 * 1024 * 1024` and is read and displayed. -/
theorem validateAndDisplayImage_at_limit :
    validateAndDisplayImage ⟨"image/png", 5 * 1024 * 1024⟩ UploadType.original
        (some "data:image/png;base64,AAAA") emptyForm
      = (displayImagePreview "data:image/png;base64,AAAA" UploadType.original emptyForm,
         [Call.readAsDataURL ⟨"image/png", 5 * 1024 * 1024⟩,
          Call.displayImagePreview "data:image/png;base64,AAAA" UploadType.original,
          Call.showNotification "Original image uploaded successfully" "success"]) := by
  decide

/-- C12 (as stated, refuted): a PDF file of 6 MB has a size of 5 MB or more, but
it is rejected with the notification 'Please select a valid image file', not
with 'Image size must be less than 5MB': the MIME type is tested first. -/
theorem C12_counterexample :
    5 * 1024 * 1024 ≤ (File.mk "application/pdf" (6 * 1024 * 1024)).size ∧
    validateAndDisplayImage ⟨"application/pdf", 6 * 1024 * 1024⟩ UploadType.original
        (some "data:application/pdf;base64,AAAA") emptyForm
      = (emptyForm, [Call.showNotification "Please select a valid image file" "error"]) ∧
    Call.showNotification "Image size must be less than 5MB" "error"
      ∉ (validateAndDisplayImage ⟨"application/pdf", 6 * 1024 * 1024⟩ UploadType.original
        (some "data:application/pdf;base64,AAAA") emptyForm).2 := by
  decide

/-- C12 (amended): `validateAndDisplayImage` accepts a file (starts reading it
for preview) only if its MIME type starts with 'image/'. A file whose MIME type
starts with 'image/' is accepted when its size is less than 5 MB
(5*1024*1024 bytes), and is rejected with the notification 'Image size must be
less than 5MB' when its size is more than 5 MB. A file whose MIME type does not
start with 'image/' is rejected with the notification 'Please select a valid
image file', whatever its size. A rejected file is not displayed: the form is
left as it was and the notification is the only call. -/
theorem C12_upload_validation (file : File) (type : UploadType) (loaded : Option String)
    (ui : FormState) :
    (Call.readAsDataURL file ∈ (validateAndDisplayImage file type loaded ui).2 →
      JSString.startsWith file.type "image/" = true) ∧
    (JSString.startsWith file.type "image/" = true → file.size < 5 * 1024 * 1024 →
      Call.readAsDataURL file ∈ (validateAndDisplayImage file type loaded ui).2) ∧
    (JSString.startsWith file.type "image/" = true → 5 * 1024 * 1024 < file.size →
      validateAndDisplayImage file type loaded ui
        = (ui, [Call.showNotification "Image size must be less than 5MB" "error"])) ∧
    (JSString.startsWith file.type "image/" = false →
      validateAndDisplayImage file type loaded ui
        = (ui, [Call.showNotification "Please select a valid image file" "error"])) := by
  have hmax : maxImageSize = 5 * 1024 * 1024 := rfl
  rcases validateAndDisplayImage_cases file type loaded ui with
    ⟨hs, hr⟩ | ⟨hs, hz, hr⟩ | ⟨hs, hz, hr⟩
  · refine ⟨fun h => ?_, fun h => ?_, fun h => ?_, fun _ => hr⟩
    · rw [hr] at h; simp at h
    · rw [hs] at h; cases h
    · rw [hs] at h; cases h
  · refine ⟨fun _ => hs, fun _ hlt => ?_, fun _ _ => hr, fun h => ?_⟩
    · rw [hmax] at hz; omega
    · rw [hs] at h; cases h
  · refine ⟨fun _ => hs, fun _ _ => hr, fun _ hgt => ?_, fun h => ?_⟩
    · rw [hmax] at hz; omega
    · rw [hs] at h; cases h

/-- C12 (amended), at a PNG file of 1 MB (read and displayed), a PNG file of
6 MB (rejected for its size) and a text file of 1 KB (rejected for its type). -/
theorem C12_upload_validation_witness :
    (JSString.startsWith (File.mk "image/png" (1024 * 1024)).type "image/" = true ∧
      Call.readAsDataURL ⟨"image/png", 1024 * 1024⟩
        ∈ (validateAndDisplayImage ⟨"image/png", 1024 * 1024⟩ UploadType.heatmap
            (some "data:image/png;base64,AAAA") emptyForm).2 ∧
      (validateAndDisplayImage ⟨"image/png", 1024 * 1024⟩ UploadType.heatmap
          (some "data:image/png;base64,AAAA") emptyForm).1.heatmapImage.src
        = "data:image/png;base64,AAAA") ∧
    validateAndDisplayImage ⟨"image/png", 6 * 1024 * 1024⟩ UploadType.heatmap
        (some "data:image/png;base64,AAAA") emptyForm
      = (emptyForm, [Call.showNotification "Image size must be less than 5MB" "error"]) ∧
    validateAndDisplayImage ⟨"text/plain", 1024⟩ UploadType.heatmap
        (some "data:text/plain;base64,AAAA") emptyForm
      = (emptyForm, [Call.showNotification "Please select a valid image file" "error"]) :=
  ⟨⟨by decide,
      (C12_upload_validation ⟨"image/png", 1024 * 1024⟩ UploadType.heatmap
        (some "data:image/png;base64,AAAA") emptyForm).2.1 (by decide) (by decide),
      by decide⟩,
    (C12_upload_validation ⟨"image/png", 6 * 1024 * 1024⟩ UploadType.heatmap
      (some "data:image/png;base64,AAAA") emptyForm).2.2.1 (by decide) (by decide),
    (C12_upload_validation ⟨"text/plain", 1024⟩ UploadType.heatmap
      (some "data:text/plain;base64,AAAA") emptyForm).2.2.2 (by decide)⟩
